import Mathlib

/-!
# Verification of the data-tidy core against its specification

Shallow embedding of the repository's core libraries
(`src/lib/dataAnalyzer.ts`, `src/lib/dataCleaner.ts`, `src/lib/schemaEngine.ts`)
into Lean 4, together with theorems settling the frozen claims.

Modelling conventions:
* JavaScript numbers are modelled as exact rationals (`ℚ`).  All arithmetic the
  verified code paths perform is ring arithmetic, comparisons and rounding,
  which are exact on the inputs exercised here; binary floating-point rounding
  error is not modelled.
* JavaScript `Date` is modelled by its time value (integer milliseconds since
  the epoch) with the host time zone taken to be UTC, so `new Date(y, m, d)`
  denotes UTC midnight.  The proleptic-Gregorian conversions mirror ECMA-262's
  `MakeDay`/`YearFromTime` semantics, including two-digit-year mapping and the
  ±8.64e15 ms time clip.
* `new Date(string)` is modelled for the ECMA-defined `YYYY-MM-DD` date form
  (accepted as UTC midnight when the components are in range); all other
  strings map to "Invalid Date" (`none`).  Host-specific legacy parsing of
  free-form strings is not modelled; no verified claim depends on it.
* Rows are association lists `List (String × JsValue)`; a missing key models
  JavaScript's `undefined` lookup.  JavaScript objects cannot carry duplicate
  keys, so theorems that need it assume the keys of a row are `Nodup`.
* `Date`-object row values do not occur in decoded CSV/XLSX data, so `JsValue`
  has no date constructor; the `value instanceof Date` early return in
  `parseMultiFormatDate` is therefore not reachable in the model.
-/

namespace DataTidy

/-- A JavaScript scalar value as it occurs in a decoded data row. -/
inductive JsValue where
  | null
  | bool (b : Bool)
  | num (q : ℚ)
  | str (s : String)
deriving DecidableEq

/-- A data row: string-keyed record of scalars, in insertion order. -/
abbrev Row := List (String × JsValue)

/-! ## String helpers (JS semantics) -/

/-- JS whitespace for `trim` / `\s`, restricted to the ASCII range used here. -/
def isWsChar (c : Char) : Bool :=
  c = ' ' ∨ c = '\t' ∨ c = '\n' ∨ c = '\r' ∨ c = '\x0b' ∨ c = '\x0c'

def trimChars (cs : List Char) : List Char :=
  ((cs.dropWhile isWsChar).reverse.dropWhile isWsChar).reverse

/-- `String.prototype.trim`. -/
def jsTrim (s : String) : String := ⟨trimChars s.data⟩

/-- `s.replace(/\s+/g, ' ')`: collapse each whitespace run to a single space. -/
def collapseWsAux : List Char → List Char
  | [] => []
  | c :: cs =>
    if isWsChar c then ' ' :: collapseWsAux (cs.dropWhile isWsChar)
    else c :: collapseWsAux cs
termination_by l => l.length
decreasing_by
  · exact Nat.lt_succ_of_le (List.Sublist.length_le (List.dropWhile_sublist _))
  · simp

def collapseWs (s : String) : String := ⟨collapseWsAux s.data⟩

/-- `String.prototype.toLowerCase` (ASCII). -/
def jsToLower (s : String) : String := ⟨s.data.map Char.toLower⟩

/-- `a.includes(b)` on strings. -/
def strContains (s sub : String) : Bool :=
  (s.data.tails.any fun t => sub.data.isPrefixOf t)

def allDigits (cs : List Char) : Bool := cs.all Char.isDigit

def digitsVal (cs : List Char) : Nat :=
  cs.foldl (fun acc c => acc * 10 + (c.toNat - '0'.toNat)) 0

/-- Split a character list on a separator character (JS `String.split` /
capture-group decomposition of the slash- and dash-date regexes). -/
def splitOnChar (sep : Char) : List Char → List (List Char)
  | [] => [[]]
  | c :: cs =>
    let r := splitOnChar sep cs
    if c = sep then [] :: r
    else match r with
      | [] => [[c]]
      | h :: t => (c :: h) :: t

/-! ## JS number semantics -/

/-- Parse the unsigned decimal part of a JS numeric literal:
`digits [. digits] [(e|E) [sign] digits]`. -/
def parseUnsignedDec (cs : List Char) : Option ℚ :=
  let intPart := cs.takeWhile Char.isDigit
  let r1 := cs.dropWhile Char.isDigit
  let (fracPart, r2) :=
    match r1 with
    | '.' :: rest => (rest.takeWhile Char.isDigit, rest.dropWhile Char.isDigit)
    | _ => ([], r1)
  let hasDot : Bool := match r1 with | '.' :: _ => true | _ => false
  if intPart = [] ∧ fracPart = [] then none
  else
    let mant : ℚ := (digitsVal intPart : ℚ) + (digitsVal fracPart : ℚ) / (10 : ℚ) ^ fracPart.length
    let r2' := if hasDot then r2 else r1
    match r2' with
    | [] => some mant
    | e :: rest =>
      if e = 'e' ∨ e = 'E' then
        let (esign, ds) : ℚ × List Char :=
          match rest with
          | '-' :: t => (-1, t)
          | '+' :: t => (1, t)
          | t => (1, t)
        if ds ≠ [] ∧ allDigits ds then
          some (mant * (10 : ℚ) ^ ((esign * digitsVal ds : ℚ)).num)
        else none
      else none

/-- `Number(string)`: `none` models `NaN`.  Whitespace-only strings give `0`.
Hex/binary/`Infinity` literals are not modelled (no claim input uses them). -/
def jsNumberOfString (s : String) : Option ℚ :=
  let cs := trimChars s.data
  if cs = [] then some 0
  else
    match cs with
    | '-' :: t => (parseUnsignedDec t).map (fun q => -q)
    | '+' :: t => parseUnsignedDec t
    | t => parseUnsignedDec t

/-- Render an integer the way JS stringifies it. -/
def intToStr (i : Int) : String :=
  if i < 0 then "-" ++ Nat.repr i.natAbs else Nat.repr i.natAbs

/-- Render a rational as JS stringifies the corresponding number.  Exact for
integers and finite decimal fractions (the only numeric values produced in the
verified runs); other rationals fall back to a `p/q` rendering. -/
def qToString (q : ℚ) : String :=
  if q.den = 1 then intToStr q.num
  else
    match (List.range 21).find? (fun k => (q * (10 : ℚ) ^ k).den = 1) with
    | some k =>
      let scaled := (q * (10 : ℚ) ^ k).num
      let sign := if scaled < 0 then "-" else ""
      let digits := Nat.repr scaled.natAbs
      let digits := if digits.length ≤ k then
          String.mk (List.replicate (k + 1 - digits.length) '0') ++ digits
        else digits
      let n := digits.length
      sign ++ ⟨digits.data.take (n - k)⟩ ++ "." ++ ⟨digits.data.drop (n - k)⟩
    | none => intToStr q.num ++ "/" ++ Nat.repr q.den

/-- `String(value)` on a scalar. -/
def jsToString : JsValue → String
  | .null => "null"
  | .bool true => "true"
  | .bool false => "false"
  | .num q => qToString q
  | .str s => s

/-- `Number(value)` on a scalar; `none` models `NaN`. -/
def jsNumber : JsValue → Option ℚ
  | .null => some 0
  | .bool true => some 1
  | .bool false => some 0
  | .num q => some q
  | .str s => jsNumberOfString s

/-- JS truthiness test `!value` for scalars. -/
def jsFalsy : JsValue → Bool
  | .null => true
  | .bool b => !b
  | .num q => q = 0
  | .str s => s = ""

/-- `Math.round`: round half toward +∞. -/
def jsRound (q : ℚ) : Int := ⌊q + 1 / 2⌋

/-- `Math.round(x * 100) / 100`. -/
def jsRound2 (q : ℚ) : ℚ := (jsRound (q * 100) : ℚ) / 100

/-! ## JS Date semantics (UTC host) -/

def msPerDay : Int := 86400000

/-- Days since 1970-01-01 of the civil date `y-m-d` (`m` is 1-based; `d` may be
out of range and acts as an offset), proleptic Gregorian. -/
def daysFromCivil (y m d : Int) : Int :=
  let y' := if m ≤ 2 then y - 1 else y
  let era := Int.fdiv y' 400
  let yoe := y' - era * 400
  let mp := Int.fmod (m + 9) 12
  let doy := (153 * mp + 2) / 5 + d - 1
  let doe := yoe * 365 + yoe / 4 - yoe / 100 + doy
  era * 146097 + doe - 719468

/-- Inverse of `daysFromCivil`: `(year, month 1-12, day)`. -/
def civilFromDays (z : Int) : Int × Int × Int :=
  let z' := z + 719468
  let era := Int.fdiv z' 146097
  let doe := z' - era * 146097
  let yoe := (doe - doe / 1460 + doe / 36524 - doe / 146096) / 365
  let y := yoe + era * 400
  let doy := doe - (365 * yoe + yoe / 4 - yoe / 100)
  let mp := (5 * doy + 2) / 153
  let d := doy - (153 * mp + 2) / 5 + 1
  let m := mp + (if mp < 10 then 3 else -9)
  (if m ≤ 2 then y + 1 else y, m, d)

/-- A JS `Date`: its time value in milliseconds since the epoch. -/
structure JSDate where
  ms : Int
deriving DecidableEq

namespace JSDate

def days (dt : JSDate) : Int := Int.fdiv dt.ms msPerDay

def getFullYear (dt : JSDate) : Int := (civilFromDays dt.days).1

/-- 0-based month, as in JS. -/
def getMonth (dt : JSDate) : Int := (civilFromDays dt.days).2.1 - 1

def getDate (dt : JSDate) : Int := (civilFromDays dt.days).2.2

/-- 0 = Sunday. -/
def getDay (dt : JSDate) : Int := Int.fmod (dt.days + 4) 7

def getTime (dt : JSDate) : Int := dt.ms

end JSDate

def pad2 (n : Int) : String :=
  if n.natAbs < 10 then "0" ++ Nat.repr n.natAbs else Nat.repr n.natAbs

def pad4 (n : Int) : String :=
  let s := Nat.repr n.natAbs
  String.mk (List.replicate (4 - s.length) '0') ++ s

/-- `date.toISOString().split('T')[0]` (UTC calendar date of the time value). -/
def isoDateString (dt : JSDate) : String :=
  let c := civilFromDays dt.days
  pad4 c.1 ++ "-" ++ pad2 c.2.1 ++ "-" ++ pad2 c.2.2

/-- `new Date(y, m, d)` (local = UTC): two-digit-year mapping, month carry,
day offset, and the ±8.64e15 ms time clip (`none` models an invalid date). -/
def jsMakeDate (y m d : Int) : Option JSDate :=
  let yy := if 0 ≤ y ∧ y ≤ 99 then y + 1900 else y
  let ycarry := yy + Int.fdiv m 12
  let mm := Int.fmod m 12
  let ms := daysFromCivil ycarry (mm + 1) d * msPerDay
  if ms.natAbs ≤ 8640000000000000 then some ⟨ms⟩ else none

def isLeapYear (y : Int) : Bool :=
  (Int.emod y 4 = 0 ∧ Int.emod y 100 ≠ 0) ∨ Int.emod y 400 = 0

def daysInMonth (y m : Int) : Int :=
  if m = 2 then (if isLeapYear y then 29 else 28)
  else if m = 4 ∨ m = 6 ∨ m = 9 ∨ m = 11 then 30
  else 31

/-- `new Date(string)`: the ECMA-defined `YYYY-MM-DD` date-time form parses as
UTC midnight when in range; any other string is Invalid Date in this model
(host legacy parsing of free-form strings is not modelled). -/
def jsDateFromString (s : String) : Option JSDate :=
  match s.data with
  | [y1, y2, y3, y4, '-', m1, m2, '-', d1, d2] =>
    if allDigits [y1, y2, y3, y4, m1, m2, d1, d2] then
      let y : Int := digitsVal [y1, y2, y3, y4]
      let m : Int := digitsVal [m1, m2]
      let d : Int := digitsVal [d1, d2]
      if 1 ≤ m ∧ m ≤ 12 ∧ 1 ≤ d ∧ d ≤ daysInMonth y m then
        some ⟨daysFromCivil y m d * msPerDay⟩
      else none
    else none
  | _ => none

/-! ## `parseMultiFormatDate` (dataAnalyzer.ts) -/

def yearInRange (dt : JSDate) : Bool :=
  1900 < dt.getFullYear ∧ dt.getFullYear < 2100

/-- `/^\d{8}$/` branch: `YYYYMMDD`, year-guarded. -/
def tryYYYYMMDD (cs : List Char) : Option (JSDate × String) :=
  if cs.length = 8 ∧ allDigits cs then
    let y : Int := digitsVal (cs.take 4)
    let m : Int := digitsVal ((cs.drop 4).take 2)
    let d : Int := digitsVal (cs.drop 6)
    match jsMakeDate y (m - 1) d with
    | some dt => if yearInRange dt then some (dt, "YYYYMMDD") else none
    | none => none
  else none

/-- `/^\d{4}-\d{2}-\d{2}/`-prefixed branch: `new Date(str)`, year-guarded. -/
def tryISO (cs : List Char) : Option (JSDate × String) :=
  match cs.take 10 with
  | [y1, y2, y3, y4, '-', m1, m2, '-', d1, d2] =>
    if allDigits [y1, y2, y3, y4, m1, m2, d1, d2] then
      match jsDateFromString ⟨cs⟩ with
      | some dt => if yearInRange dt then some (dt, "YYYY-MM-DD") else none
      | none => none
    else none
  | _ => none

/-- `/^(\d{4})\/(\d{2})\/(\d{2})$/` branch: no year guard in the source. -/
def tryYMDSlash (cs : List Char) : Option (JSDate × String) :=
  match splitOnChar '/' cs with
  | [a, b, c] =>
    if a.length = 4 ∧ b.length = 2 ∧ c.length = 2 ∧ allDigits a ∧ allDigits b ∧ allDigits c then
      match jsMakeDate (digitsVal a) ((digitsVal b : Int) - 1) (digitsVal c) with
      | some dt => some (dt, "YYYY/MM/DD")
      | none => none
    else none
  | _ => none

def twoPartDigits (a : List Char) : Bool :=
  (a.length = 1 ∨ a.length = 2) ∧ allDigits a

/-- `/^(\d{1,2})\/(\d{1,2})\/(\d{4})$/` branch: no year guard in the source. -/
def tryMDY (cs : List Char) : Option (JSDate × String) :=
  match splitOnChar '/' cs with
  | [a, b, c] =>
    if twoPartDigits a ∧ twoPartDigits b ∧ c.length = 4 ∧ allDigits c then
      match jsMakeDate (digitsVal c) ((digitsVal a : Int) - 1) (digitsVal b) with
      | some dt => some (dt, "MM/DD/YYYY")
      | none => none
    else none
  | _ => none

/-- `/^(\d{1,2})-(\d{1,2})-(\d{4})$/` branch: no year guard in the source. -/
def tryDMYDash (cs : List Char) : Option (JSDate × String) :=
  match splitOnChar '-' cs with
  | [a, b, c] =>
    if twoPartDigits a ∧ twoPartDigits b ∧ c.length = 4 ∧ allDigits c then
      match jsMakeDate (digitsVal c) ((digitsVal b : Int) - 1) (digitsVal a) with
      | some dt => some (dt, "DD-MM-YYYY")
      | none => none
    else none
  | _ => none

/-- Ambiguous-slash branch (`DD/MM/YYYY` when first > 12 and second ≤ 12). -/
def tryDMYSlash (cs : List Char) : Option (JSDate × String) :=
  match splitOnChar '/' cs with
  | [a, b, c] =>
    if twoPartDigits a ∧ twoPartDigits b ∧ c.length = 4 ∧ allDigits c then
      if digitsVal a > 12 ∧ digitsVal b ≤ 12 then
        match jsMakeDate (digitsVal c) ((digitsVal b : Int) - 1) (digitsVal a) with
        | some dt => some (dt, "DD/MM/YYYY")
        | none => none
      else none
    else none
  | _ => none

/-- Final `new Date(str)` fallback, year-guarded. -/
def tryNatural (cs : List Char) : Option (JSDate × String) :=
  match jsDateFromString ⟨cs⟩ with
  | some dt => if yearInRange dt then some (dt, "natural") else none
  | none => none

/-- `parseMultiFormatDate` (dataAnalyzer.ts lines 34-100).  The branches are
tried in source order; `(none, "unknown")` models `{date: null, format:
'unknown'}`. -/
def parseMultiFormatDate (v : JsValue) : Option JSDate × String :=
  if jsFalsy v then (none, "unknown")
  else
    let str := jsTrim (jsToString v)
    if str = "" then (none, "unknown")
    else
      let cs := str.data
      match tryYYYYMMDD cs with
      | some (d, f) => (some d, f)
      | none =>
      match tryISO cs with
      | some (d, f) => (some d, f)
      | none =>
      match tryYMDSlash cs with
      | some (d, f) => (some d, f)
      | none =>
      match tryMDY cs with
      | some (d, f) => (some d, f)
      | none =>
      match tryDMYDash cs with
      | some (d, f) => (some d, f)
      | none =>
      match tryDMYSlash cs with
      | some (d, f) => (some d, f)
      | none =>
      match tryNatural cs with
      | some (d, f) => (some d, f)
      | none => (none, "unknown")

/-! ## Generic helpers shared by the engines -/

/-- First value for a key (JS property lookup; `none` models `undefined`). -/
def lookupKey (k : String) : Row → Option JsValue
  | [] => none
  | (k', v) :: rest => if k' = k then some v else lookupKey k rest

/-- `row[k] = v`: overwrite in place if the key exists, else append (JS
object-assignment semantics, preserving key insertion order). -/
def setKey (k : String) (v : JsValue) : Row → Row
  | [] => [(k, v)]
  | (k', v') :: rest => if k' = k then (k, v) :: rest else (k', v') :: setKey k v rest

/-- A cell as read from a row: `none` models `undefined` (absent key). -/
abbrev Cell := Option JsValue

def colValues (rows : List Row) (col : String) : List Cell :=
  rows.map (lookupKey col)

/-- `Number(cell)`: `Number(undefined)` is `NaN`. -/
def jsNumberOfCell : Cell → Option ℚ
  | none => none
  | some v => jsNumber v

/-- Stable insertion into a `le`-sorted prefix (after all `le y x` elements),
giving JS `Array.prototype.sort` behavior for a consistent comparator. -/
def insertLe (le : α → α → Bool) (x : α) : List α → List α
  | [] => [x]
  | y :: ys => if le y x then y :: insertLe le x ys else x :: y :: ys

/-- JS stable sort by a comparator-induced `le`. -/
def sortByJS (le : α → α → Bool) (l : List α) : List α :=
  l.foldl (fun acc x => insertLe le x acc) []

/-- Keep the first occurrence of each key (`f`-image), in order. -/
def dedupByKey (f : α → String) : List String → List α → List α
  | _, [] => []
  | seen, x :: xs =>
    if f x ∈ seen then dedupByKey f seen xs
    else x :: dedupByKey f (f x :: seen) xs

/-! ## Schema engine (`schemaEngine.ts`) -/

/-- `levenshteinDistance` (schemaEngine.ts lines 66-86): the DP-table
recurrence (deletion / insertion / substitution, each cost 1), realized as the
equivalent structural recursion over the two character sequences. -/
def levChars : List Char → List Char → Nat
  | [], bs => bs.length
  | a :: as, [] => (a :: as).length
  | a :: as, b :: bs =>
    let cost := if a = b then 0 else 1
    min (min (levChars as (b :: bs) + 1) (levChars (a :: as) bs + 1))
      (levChars as bs + cost)

def levenshteinDistance (a b : String) : Nat := levChars a.data b.data

def isLowerAlnum (c : Char) : Bool := ('a' ≤ c ∧ c ≤ 'z') ∨ ('0' ≤ c ∧ c ≤ '9')

/-- `normalize` (schemaEngine.ts line 98): lowercase, strip `[^a-z0-9]`. -/
def normalize (s : String) : String := ⟨(jsToLower s).data.filter isLowerAlnum⟩

/-- `stringSimilarity` (schemaEngine.ts lines 89-96), the JS number as an
exact rational. -/
def stringSimilarity (a b : String) : ℚ :=
  let na := normalize a
  let nb := normalize b
  if na = nb then 100
  else
    let maxLen : ℚ := max na.data.length nb.data.length
    if maxLen = 0 then 100
    else (jsRound ((1 - (levenshteinDistance na nb : ℚ) / maxLen) * 100) : ℚ)

inductive SchemaColType where
  | string | number | date | boolean
deriving DecidableEq

def SchemaColType.toStr : SchemaColType → String
  | .string => "string" | .number => "number" | .date => "date" | .boolean => "boolean"

structure SchemaColumn where
  name : String
  type : SchemaColType
  required : Bool := false
  aliases : List String := []
deriving DecidableEq

structure TargetSchema where
  columns : List SchemaColumn
deriving DecidableEq

/-- Missing-value test used by the transformation pipeline:
`value === null || value === undefined || value === ''`. -/
def cellMissing : Cell → Bool
  | none => true
  | some .null => true
  | some (.str s) => s = ""
  | _ => false

def strSlice50 (s : String) : String := ⟨s.data.take 50⟩

structure EnforceResult where
  value : JsValue
  valid : Bool
  reason : Option String := none

def trueVals : List String := ["true", "yes", "1", "y", "t", "on"]
def falseVals : List String := ["false", "no", "0", "n", "f", "off"]

/-- `enforceType` (schemaEngine.ts lines 183-222). -/
def enforceType (value : Cell) (expectedType : SchemaColType) : EnforceResult :=
  if cellMissing value then ⟨.null, true, none⟩
  else
    let v := value.getD .null
    match expectedType with
    | .number =>
      let str := jsTrim ⟨(jsToString v).data.filter (· ≠ ',')⟩
      match jsNumberOfString str with
      | some q => ⟨.num q, true, none⟩
      | none => ⟨v, false, some ("Cannot cast \"" ++ strSlice50 (jsToString v) ++ "\" to number")⟩
    | .date =>
      match (parseMultiFormatDate v).1 with
      | some dt => ⟨.str (isoDateString dt), true, none⟩
      | none => ⟨v, false,
          some ("Cannot parse \"" ++ strSlice50 (jsToString v) ++ "\" as date (tried ISO, US, EU formats)")⟩
    | .boolean =>
      let str := jsTrim (jsToLower (jsToString v))
      if str ∈ trueVals then ⟨.bool true, true, none⟩
      else if str ∈ falseVals then ⟨.bool false, true, none⟩
      else ⟨v, false, some ("Cannot cast \"" ++ strSlice50 (jsToString v) ++ "\" to boolean")⟩
    | .string => ⟨.str (jsTrim (jsToString v)), true, none⟩

/-- String order used by JS `Array.prototype.sort()` on strings (UTF-16 code
units; identical to code-point order on the data handled here). -/
def strLe (a b : String) : Bool := a ≤ b

/-- `hashRow` (schemaEngine.ts lines 226-230). -/
def hashRow (row : Row) : String :=
  let keys := sortByJS strLe (row.map Prod.fst)
  String.intercalate "|" (keys.map fun k =>
    k ++ ":" ++
      match lookupKey k row with
      | none => ""
      | some .null => ""
      | some v => jsToString v)

structure ErrorLogEntry where
  rowIndex : Nat
  column : String
  originalValue : JsValue
  expectedType : String
  reason : String
deriving DecidableEq

structure ColStat where
  valid : Nat := 0
  invalid : Nat := 0
  missing : Nat := 0
deriving DecidableEq

structure DataQualitySummary where
  rowsProcessed : Nat
  rowsSucceeded : Nat
  rowsFailed : Nat
  failureReasons : List (String × Nat)
  mappingConfidenceScore : Int
  errorLog : List ErrorLogEntry
  duplicatesSkipped : Nat
  columnStats : List (String × ColStat)
deriving DecidableEq

structure TransformationResult where
  data : List Row
  errorRows : List Row
  qualitySummary : DataQualitySummary
  appliedMappings : List (String × String)
deriving DecidableEq

/-- Bump an association-list counter (JS `obj[k] = (obj[k] || 0) + 1`). -/
def bumpCount (k : String) : List (String × Nat) → List (String × Nat)
  | [] => [(k, 1)]
  | (k', n) :: rest => if k' = k then (k, n + 1) :: rest else (k', n) :: bumpCount k rest

def bumpStat (k : String) (f : ColStat → ColStat) : List (String × ColStat) → List (String × ColStat)
  | [] => []
  | (k', st) :: rest => if k' = k then (k, f st) :: rest else (k', st) :: bumpStat k f rest

/-- State of the per-row mapping loop in `transformData`. -/
structure RowState where
  target : Row
  errors : List ErrorLogEntry
  columnStats : List (String × ColStat)
  failureReasons : List (String × Nat)

/-- One `(srcCol, tgtCol)` iteration of the inner loop of `transformData`
(schemaEngine.ts lines 270-306). -/
def processMapping (schema : TargetSchema) (i : Nat) (srcRow : Row) (st : RowState)
    (m : String × String) : RowState :=
  let (srcCol, tgtCol) := m
  let rawValue := lookupKey srcCol srcRow
  match schema.columns.find? (fun c => c.name = tgtCol) with
  | none =>
    -- extra column not in schema: pass through (undefined stored as null)
    { st with target := setKey tgtCol (rawValue.getD .null) st.target }
  | some schemaCol =>
    if cellMissing rawValue then
      { st with
        target := setKey tgtCol .null st.target
        columnStats := bumpStat tgtCol (fun s => { s with missing := s.missing + 1 }) st.columnStats }
    else
      let r := enforceType rawValue schemaCol.type
      if r.valid then
        { st with
          target := setKey tgtCol r.value st.target
          columnStats := bumpStat tgtCol (fun s => { s with valid := s.valid + 1 }) st.columnStats }
      else
        let errorReason := r.reason.getD ("Type mismatch: expected " ++ schemaCol.type.toStr)
        { target := setKey tgtCol (rawValue.getD .null) st.target
          errors := st.errors ++ [⟨i, tgtCol, rawValue.getD .null, schemaCol.type.toStr, errorReason⟩]
          columnStats := bumpStat tgtCol (fun s => { s with invalid := s.invalid + 1 }) st.columnStats
          failureReasons := bumpCount errorReason st.failureReasons }

/-- Full inner loop over the confirmed mappings for one row. -/
def processRow (schema : TargetSchema) (cm : List (String × String)) (i : Nat) (srcRow : Row)
    (cs : List (String × ColStat)) (fr : List (String × Nat)) : RowState :=
  cm.foldl (processMapping schema i srcRow) ⟨[], [], cs, fr⟩

/-- Accumulated state of the row loop in `transformData`. -/
structure TransformState where
  seen : List String
  duplicatesSkipped : Nat
  successRows : List Row
  errorRows : List Row
  errorLog : List ErrorLogEntry
  columnStats : List (String × ColStat)
  failureReasons : List (String × Nat)

/-- Row loop of `transformData` (schemaEngine.ts lines 255-315). -/
def transformGo (schema : TargetSchema) (cm : List (String × String)) :
    Nat → List Row → TransformState → TransformState
  | _, [], st => st
  | i, srcRow :: rest, st =>
    let hash := hashRow srcRow
    if hash ∈ st.seen then
      transformGo schema cm (i + 1) rest { st with duplicatesSkipped := st.duplicatesSkipped + 1 }
    else
      let st := { st with seen := hash :: st.seen }
      let rs := processRow schema cm i srcRow st.columnStats st.failureReasons
      if rs.errors ≠ [] then
        transformGo schema cm (i + 1) rest
          { st with
            errorRows := st.errorRows ++
              [setKey "_error_details" (.str (String.intercalate "; " (rs.errors.map (·.reason)))) rs.target]
            errorLog := st.errorLog ++ rs.errors
            columnStats := rs.columnStats
            failureReasons := rs.failureReasons }
      else
        transformGo schema cm (i + 1) rest
          { st with
            successRows := st.successRows ++ [rs.target]
            columnStats := rs.columnStats
            failureReasons := rs.failureReasons }

/-- `transformData` (schemaEngine.ts lines 234-339). -/
def transformData (data : List Row) (targetSchema : TargetSchema)
    (confirmedMappings : List (String × String)) : TransformationResult :=
  let initStats := targetSchema.columns.map (fun c => (c.name, ({} : ColStat)))
  let st := transformGo targetSchema confirmedMappings 0 data ⟨[], 0, [], [], [], initStats, []⟩
  let totalProcessed := data.length - st.duplicatesSkipped
  let mappedCount := confirmedMappings.length
  let schemaCount := targetSchema.columns.length
  let mappingConfidenceScore : Int :=
    if schemaCount > 0 then jsRound ((mappedCount : ℚ) / (schemaCount : ℚ) * 100) else 100
  { data := st.successRows
    errorRows := st.errorRows
    qualitySummary :=
      { rowsProcessed := totalProcessed
        rowsSucceeded := st.successRows.length
        rowsFailed := st.errorRows.length
        failureReasons := st.failureReasons
        mappingConfidenceScore := mappingConfidenceScore
        errorLog := st.errorLog
        duplicatesSkipped := st.duplicatesSkipped
        columnStats := st.columnStats }
    appliedMappings := confirmedMappings }

/-- The first-100 non-empty sample `inferSchemaFromData` takes per column. -/
def schemaSample (data : List Row) (key : String) : List JsValue :=
  ((data.take 100).map (lookupKey key)).filterMap fun c =>
    match c with
    | none => none
    | some .null => none
    | some (.str "") => none
    | some v => some v

/-- Number of sampled values that are numeric-parseable after stripping
thousands separators (`!isNaN(Number(String(v).replace(/,/g, '')))`). -/
def numericParseCount (sample : List JsValue) : Nat :=
  (sample.filter fun v =>
    (jsNumberOfString ⟨(jsToString v).data.filter (· ≠ ',')⟩).isSome).length

/-- Column-type classification of `inferSchemaFromData` over one sample. -/
def inferColumnType (sample : List JsValue) : SchemaColType :=
  if (numericParseCount sample : ℚ) / (max sample.length 1 : ℚ) > 85 / 100 then .number
  else
    let dateCount := (sample.filter fun v => (parseMultiFormatDate v).1.isSome).length
    if (dateCount : ℚ) / (max sample.length 1 : ℚ) > 7 / 10 then .date
    else
      let boolVals : List String := ["true", "false", "yes", "no", "1", "0", "y", "n"]
      let boolCount := (sample.filter fun v => jsTrim (jsToLower (jsToString v)) ∈ boolVals).length
      if boolCount = sample.length ∧ sample.length ≥ 2 then .boolean
      else .string

/-- `inferSchemaFromData` (schemaEngine.ts lines 343-380). -/
def inferSchemaFromData (data : List Row) : TargetSchema :=
  if data.isEmpty then ⟨[]⟩
  else
    ⟨((data.headI).map Prod.fst).map fun key =>
      { name := key, type := inferColumnType (schemaSample data key), required := false }⟩

/-! ### Specification views of `transformData` used by the theorems -/

/-- A per-cell enforcement failure, stripped of its row index. -/
structure CellFailure where
  column : String
  originalValue : JsValue
  expectedType : String
  reason : String
deriving DecidableEq

/-- The failure (if any) a confirmed mapping produces on a row: the mapped
target exists in the schema, the raw cell is not missing, and `enforceType`
rejects it. -/
def mappingError (schema : TargetSchema) (row : Row) (m : String × String) :
    Option CellFailure :=
  match schema.columns.find? (fun c => c.name = m.2) with
  | none => none
  | some schemaCol =>
    if cellMissing (lookupKey m.1 row) then none
    else
      let r := enforceType (lookupKey m.1 row) schemaCol.type
      if r.valid then none
      else
        some ⟨m.2, (lookupKey m.1 row).getD .null, schemaCol.type.toStr,
          r.reason.getD ("Type mismatch: expected " ++ schemaCol.type.toStr)⟩

/-- All per-cell failures of a row, in mapping order. -/
def rowFailures (schema : TargetSchema) (cm : List (String × String)) (row : Row) :
    List CellFailure :=
  cm.filterMap (mappingError schema row)

/-- The value the inner loop writes for a mapping (every branch writes). -/
def mappedWrite (schema : TargetSchema) (row : Row) (m : String × String) : JsValue :=
  let rawValue := lookupKey m.1 row
  match schema.columns.find? (fun c => c.name = m.2) with
  | none => rawValue.getD .null
  | some schemaCol =>
    if cellMissing rawValue then .null
    else
      let r := enforceType rawValue schemaCol.type
      if r.valid then r.value else rawValue.getD .null

/-- The transformed row the inner loop builds for one source row. -/
def targetRowOf (schema : TargetSchema) (cm : List (String × String)) (row : Row) : Row :=
  cm.foldl (fun acc m => setKey m.2 (mappedWrite schema row m) acc) []

/-! ## Column profiler (`dataAnalyzer.ts`) -/

def boolTrueVals : List String := ["true", "yes", "1", "y", "t", "on", "active", "enabled"]
def boolFalseVals : List String := ["false", "no", "0", "n", "f", "off", "inactive", "disabled"]

inductive DataType where
  | numeric | categorical | date | boolean | text
deriving DecidableEq

inductive Classification where
  | date | time_series_numeric | non_time_numeric | categorical
  | identifier | text | boolean | derived
deriving DecidableEq

inductive Role where
  | dimension | measure | date | identifier
deriving DecidableEq

/-- Non-null filter of `detectColumnType`:
`v !== null && v !== undefined && v !== ''`. -/
def cellNonNull : Cell → Bool
  | none => false
  | some .null => false
  | some (.str s) => s ≠ ""
  | _ => true

/-- `detectColumnType` (dataAnalyzer.ts lines 173-211). -/
def detectColumnType (values : List Cell) : DataType :=
  let nonNullValues := (values.filter cellNonNull).filterMap id
  if nonNullValues.isEmpty then .text
  else
    let sample := nonNullValues.take 200
    let booleanMatch := sample.all fun v =>
      jsTrim (jsToLower (jsToString v)) ∈ boolTrueVals ++ boolFalseVals
    if booleanMatch ∧ sample.length ≥ 2 then .boolean
    else
      let dateCount := (sample.filter fun v => (parseMultiFormatDate v).1.isSome).length
      if (dateCount : ℚ) / (sample.length : ℚ) ≥ 7 / 10 then .date
      else
        let numericCount := (sample.filter fun v =>
          let str := jsTrim (jsToString v)
          str ≠ "" ∧ (jsNumberOfString ⟨str.data.filter (· ≠ ',')⟩).isSome).length
        if (numericCount : ℚ) / (sample.length : ℚ) ≥ 85 / 100 then .numeric
        else
          let uniqueRatio := ((sample.map jsToString).dedup.length : ℚ) / (sample.length : ℚ)
          if uniqueRatio ≤ 3 / 10 ∨ (nonNullValues.map jsToString).dedup.length ≤ 30 then .categorical
          else .text

def timeSeriesPatterns : List String :=
  ["revenue", "sales", "amount", "count", "total", "value", "metric",
   "measurement", "reading", "quantity", "units", "volume", "rate",
   "growth", "change", "delta", "daily", "monthly", "weekly", "yearly",
   "balance", "cumulative", "running"]

/-- `detectTimeSeriesColumn` (dataAnalyzer.ts lines 103-124). -/
def detectTimeSeriesColumn (name : String) (values : List Cell) (dateColumns : List String) : Bool :=
  let lowerName := jsToLower name
  let isTimeSeriesName := timeSeriesPatterns.any fun p => strContains lowerName p
  let hasDateContext := dateColumns.length > 0
  let numericValues := values.filter fun v => cellNonNull v ∧ (jsNumberOfCell v).isSome
  let isNumeric := (numericValues.length : ℚ) / (values.length : ℚ) > 9 / 10
  isNumeric ∧ (isTimeSeriesName ∨ hasDateContext)

def idPatterns : List String := ["id", "_id", "key", "code", "uuid", "guid", "number", "no", "index"]

def strStartsWith (s pre : String) : Bool := pre.data.isPrefixOf s.data
def strEndsWith (s suf : String) : Bool := suf.data.isSuffixOf s.data

/-- `classifyColumn` (dataAnalyzer.ts lines 127-170). -/
def classifyColumn (name : String) (values : List Cell) (dataType : DataType)
    (dateColumns : List String) : Classification :=
  let lowerName := jsToLower name
  if strContains lowerName "_year" ∨ strContains lowerName "_quarter" ∨
     strContains lowerName "_month" ∨ strContains lowerName "_day_of_week" ∨
     strContains lowerName "_month_name" then .derived
  else
    let isIdentifier := idPatterns.any fun p =>
      lowerName = p ∨ strEndsWith lowerName ("_" ++ p) ∨ strStartsWith lowerName (p ++ "_")
    if isIdentifier ∧ dataType ≠ .date then .identifier
    else if dataType = .date then .date
    else if dataType = .boolean then .categorical
    else if dataType = .numeric then
      if detectTimeSeriesColumn name values dateColumns then .time_series_numeric
      else .non_time_numeric
    else if dataType = .categorical then .categorical
    else .text

def dimensionPatterns : List String := ["year", "month", "quarter", "week", "day", "hour", "minute"]

/-- `detectColumnRole` (dataAnalyzer.ts lines 214-228). -/
def detectColumnRole (name : String) (type : DataType) (classification : Classification)
    (uniqueRatio : ℚ) : Role :=
  if type = .date ∨ classification = .date then .date
  else if classification = .identifier then .identifier
  else if classification = .time_series_numeric ∨ classification = .non_time_numeric then
    let lowerName := jsToLower name
    if (dimensionPatterns.any fun p => strContains lowerName p) ∧ uniqueRatio < 5 / 100 then
      .dimension
    else .measure
  else .dimension

/-- Numeric summary of a column (dataAnalyzer.ts lines 231-290).  The source
stores `stdDev = Math.sqrt(variance)` and `skewness = Σ((v-mean)/stdDev)³/n`;
those are irrational square roots, so the model keeps the sufficient
statistics `variance` and the third central moment `m3` instead and expresses
the one comparison the code makes (`isSkewed`, i.e. `|skewness| > 0.5`)
exactly through them: when `variance > 0`, `|m3/√variance³| > 1/2  ↔
4·m3² > variance³`; when `variance = 0` the source sets `skewness = 0`. -/
structure NumericStats where
  min : ℚ
  max : ℚ
  mean : ℚ
  median : ℚ
  variance : ℚ
  q1 : ℚ
  q3 : ℚ
  iqr : ℚ
  outlierCount : Nat
  outliers : List (ℚ × Nat)
  m3 : ℚ
  isSkewed : Bool
deriving DecidableEq

def qLe (a b : ℚ) : Bool := a ≤ b

/-- `calculateNumericStats` (dataAnalyzer.ts lines 231-290). -/
def calculateNumericStats (values : List ℚ) : NumericStats :=
  let sorted := sortByJS qLe values
  let n := sorted.length
  if h : n = 0 then
    ⟨0, 0, 0, 0, 0, 0, 0, 0, 0, [], 0, false⟩
  else
    let mean := sorted.sum / (n : ℚ)
    let variance := (sorted.map fun v => (v - mean) ^ 2).sum / (n : ℚ)
    let median :=
      if n % 2 = 0 then (sorted.getD (n / 2 - 1) 0 + sorted.getD (n / 2) 0) / 2
      else sorted.getD (n / 2) 0
    let q1 := sorted.getD (n / 4) 0
    let q3 := sorted.getD (3 * n / 4) 0
    let iqr := q3 - q1
    let m3 := (sorted.map fun v => (v - mean) ^ 3).sum / (n : ℚ)
    let isSkewed : Bool := variance > 0 ∧ 4 * m3 ^ 2 > variance ^ 3
    let lowerBound := q1 - 3 / 2 * iqr
    let upperBound := q3 + 3 / 2 * iqr
    let outliers := (values.enum.filter fun p => p.2 < lowerBound ∨ p.2 > upperBound).map
      fun p => (p.2, p.1)
    ⟨sorted.getD 0 0, sorted.getD (n - 1) 0, mean, median, variance, q1, q3, iqr,
      outliers.length, outliers, m3, isSkewed⟩

structure CategoricalInfo where
  uniqueValues : List String
  valueCounts : List (String × Nat)
  normalizedMappings : List (String × String)
  inconsistentValues : List String
  missingPercentage : ℚ
deriving DecidableEq

def bumpGen [DecidableEq κ] (k : κ) : List (κ × Nat) → List (κ × Nat)
  | [] => [(k, 1)]
  | (k', n) :: rest => if k' = k then (k, n + 1) :: rest else (k', n) :: bumpGen k rest

def setAssoc [DecidableEq κ] (k : κ) (v : β) : List (κ × β) → List (κ × β)
  | [] => [(k, v)]
  | (k', v') :: rest => if k' = k then (k, v) :: rest else (k', v') :: setAssoc k v rest

def lookupAssoc [DecidableEq κ] (k : κ) : List (κ × β) → Option β
  | [] => none
  | (k', v) :: rest => if k' = k then some v else lookupAssoc k rest

def appendGroup (k : String) (v : String) : List (String × List String) → List (String × List String)
  | [] => [(k, [v])]
  | (k', g) :: rest => if k' = k then (k, g ++ [v]) :: rest else (k', g) :: appendGroup k v rest

/-- `mode` of dataCleaner.ts (lines 52-69): first value attaining the maximal
multiplicity, in first-occurrence order. -/
def modeList [DecidableEq α] (values : List α) : Option α :=
  if values.isEmpty then none
  else
    let counts := values.foldl (fun acc v => bumpGen v acc) []
    (counts.foldl
      (fun (best : Option (α × Nat)) p =>
        match best with
        | none => if p.2 > 0 then some p else none
        | some (bv, bc) => if p.2 > bc then some p else some (bv, bc))
      none).map Prod.fst

def lexCmp : List Char → List Char → Int
  | [], [] => 0
  | [], _ :: _ => -1
  | _ :: _, [] => 1
  | a :: as, b :: bs => if a < b then -1 else if b < a then 1 else lexCmp as bs

/-- Model of `String.prototype.localeCompare` (default en collation on the
ASCII data handled here): primary comparison case-insensitive, ties broken
with lowercase before uppercase. -/
def jsLocaleCompare (a b : String) : Int :=
  let c := lexCmp (a.data.map Char.toLower) (b.data.map Char.toLower)
  if c ≠ 0 then c
  else lexCmp (a.data.map fun ch => if Char.toLower ch = ch then '0' else '1')
    (b.data.map fun ch => if Char.toLower ch = ch then '0' else '1')

/-- Canonical-variant comparator of `analyzeCategorical` (dataAnalyzer.ts
lines 344-352): frequency desc, properly-capitalized first, locale order. -/
def variantCmp (valueCounts : List (String × Nat)) (a b : String) : Int :=
  let ca : Int := ((lookupAssoc a valueCounts).getD 0 : Nat)
  let cb : Int := ((lookupAssoc b valueCounts).getD 0 : Nat)
  if cb - ca ≠ 0 then cb - ca
  else
    let aProper := match a.data with | [] => true | c :: _ => Char.toUpper c == c
    let bProper := match b.data with | [] => true | c :: _ => Char.toUpper c == c
    if aProper && !bProper then -1
    else if bProper && !aProper then 1
    else jsLocaleCompare a b

def commonMappings : List (String × List String) :=
  [("Male", ["m", "male", "man", "boy", "M", "MALE", "Male"]),
   ("Female", ["f", "female", "woman", "girl", "F", "FEMALE", "Female"]),
   ("Yes", ["y", "yes", "YES", "Yes", "true", "TRUE", "True", "1"]),
   ("No", ["n", "no", "NO", "No", "false", "FALSE", "False", "0"]),
   ("Active", ["active", "ACTIVE", "Active", "enabled", "on"]),
   ("Inactive", ["inactive", "INACTIVE", "Inactive", "disabled", "off"])]

def normKey (s : String) : String := ⟨(jsTrim (jsToLower s)).data.filter isLowerAlnum⟩

/-- `analyzeCategorical` (dataAnalyzer.ts lines 293-372).  Key enumeration is
modelled in insertion order (the integer-like-key reordering of JS objects
does not affect any verified property). -/
def analyzeCategorical (values : List String) (totalRows : Nat) : CategoricalInfo :=
  let missingCount := (values.filter fun v => jsTrim v = "").length
  let valueCounts := (values.filter fun v => jsTrim v ≠ "").foldl (fun acc v => bumpGen v acc) []
  let uniqueValues := valueCounts.map Prod.fst
  let normalizedGroups := uniqueValues.foldl (fun acc v => appendGroup (normKey v) v acc) []
  -- common semantic mappings first
  let (mappings, inconsistent) :=
    uniqueValues.foldl
      (fun (st : List (String × String) × List String) val =>
        commonMappings.foldl
          (fun (st : List (String × String) × List String) cm =>
            let lowerVal := jsTrim (jsToLower val)
            if lowerVal ∈ cm.2.map jsToLower ∧ val ≠ cm.1 then
              (setAssoc val cm.1 st.1, if val ∈ st.2 then st.2 else st.2 ++ [val])
            else st)
          st)
      ([], [])
  -- generic clustering of multi-member normalized groups
  let (mappings, inconsistent) :=
    normalizedGroups.foldl
      (fun (st : List (String × String) × List String) g =>
        if g.2.length > 1 then
          let canonical := (sortByJS (fun a b => variantCmp valueCounts a b ≤ 0) g.2).headI
          g.2.foldl
            (fun (st : List (String × String) × List String) val =>
              if val ≠ canonical ∧ (lookupAssoc val st.1).isNone then
                (setAssoc val canonical st.1, if val ∈ st.2 then st.2 else st.2 ++ [val])
              else st)
            st
        else st)
      (mappings, inconsistent)
  { uniqueValues := uniqueValues
    valueCounts := valueCounts
    normalizedMappings := mappings
    inconsistentValues := inconsistent
    missingPercentage := (missingCount : ℚ) / (totalRows : ℚ) * 100 }

structure DateInfo where
  minDate : JSDate
  maxDate : JSDate
  invalidDates : Nat
  format : String
  dateRange : String
  validDates : List JSDate
  medianDate : Option JSDate
deriving DecidableEq

def monthShortNames : List String :=
  ["Jan", "Feb", "Mar", "Apr", "May", "Jun", "Jul", "Aug", "Sep", "Oct", "Nov", "Dec"]

/-- `d.toLocaleDateString('en-US', {year:'numeric', month:'short', day:'numeric'})`. -/
def localeShortDate (dt : JSDate) : String :=
  monthShortNames.getD dt.getMonth.toNat "Jan" ++ " " ++ intToStr dt.getDate ++ ", " ++
    intToStr dt.getFullYear

/-- `analyzeDate` (dataAnalyzer.ts lines 375-433). -/
def analyzeDate (values : List Cell) : DateInfo :=
  let init : JSDate × JSDate × Nat × List JSDate × List (String × Nat) :=
    (⟨8640000000000000⟩, ⟨-8640000000000000⟩, 0, [], [])
  let st := values.foldl
    (fun (st : JSDate × JSDate × Nat × List JSDate × List (String × Nat)) v =>
      match v with
      | none => st
      | some .null => st
      | some (.str "") => st
      | some v =>
        let (minD, maxD, inv, valid, fmts) := st
        match parseMultiFormatDate v with
        | (some dt, fmt) =>
          ((if dt.ms < minD.ms then dt else minD), (if dt.ms > maxD.ms then dt else maxD),
            inv, valid ++ [dt], bumpGen fmt fmts)
        | (none, _) => (minD, maxD, inv + 1, valid, fmts))
    init
  let (minDate, maxDate, invalidDates, validDates, formatCounts) := st
  let format := ((formatCounts.foldl
    (fun (best : Option (String × Nat)) p =>
      match best with
      | none => if p.2 > 0 then some p else none
      | some (bf, bc) => if p.2 > bc then some p else some (bf, bc))
    none).map Prod.fst).getD "unknown"
  let medianDate : Option JSDate :=
    if validDates.isEmpty then none
    else
      let sorted := sortByJS (fun a b : JSDate => a.ms ≤ b.ms) validDates
      let mid := sorted.length / 2
      if sorted.length % 2 = 0 then
        some ⟨Int.tdiv ((sorted.getD (mid - 1) ⟨0⟩).ms + (sorted.getD mid ⟨0⟩).ms) 2⟩
      else some (sorted.getD mid ⟨0⟩)
  let dateRange :=
    if validDates.isEmpty then ""
    else localeShortDate minDate ++ " to " ++ localeShortDate maxDate
  ⟨minDate, maxDate, invalidDates, format, dateRange, validDates, medianDate⟩

structure ColumnIssue where
  type : String
  count : Nat
  description : String
deriving DecidableEq

structure ColumnProfile where
  name : String
  originalName : String
  dataType : DataType
  classification : Classification
  role : Role
  nullCount : Nat
  uniqueCount : Nat
  sampleValues : List String
  stats : Option NumericStats
  categoricalInfo : Option CategoricalInfo
  dateInfo : Option DateInfo
  issues : List ColumnIssue
  isTimeSeries : Bool
  isDerived : Bool
deriving DecidableEq

/-- Non-null filter of `profileColumn`: also rejects whitespace-only strings. -/
def cellNonBlank : Cell → Bool
  | none => false
  | some .null => false
  | some (.str s) => s ≠ "" ∧ jsTrim s ≠ ""
  | _ => true

def positiveOnlyPatterns : List String :=
  ["price", "cost", "amount", "quantity", "qty", "count", "age", "revenue", "sales", "units", "weight"]

def hasEncodingIssue (s : String) : Bool :=
  (s.data.any fun c => c.toNat > 127) ∧
    (strContains s "�" ∨ strContains s "Ã" ∨ strContains s "â€")

def pctStr (q : ℚ) : String := toString (jsRound (q * 10) : Int) -- placeholder, unused

/-- `(x).toFixed(1)` for the missing-percentage description string. -/
def toFixed1 (q : ℚ) : String :=
  let n := ⌊|q| * 10 + 1 / 2⌋
  let sign := if q < 0 ∧ n ≠ 0 then "-" else ""
  sign ++ intToStr (n / 10) ++ "." ++ intToStr (n % 10)

/-- `profileColumn` (dataAnalyzer.ts lines 436-543). -/
def profileColumn (name : String) (values : List Cell) (dateColumns : List String) :
    ColumnProfile :=
  let nonNullValues := (values.filter cellNonBlank).filterMap id
  let dataType := detectColumnType values
  let classification := classifyColumn name values dataType dateColumns
  let uniqueValues := (nonNullValues.map jsToString).dedup
  let uniqueRatio := (uniqueValues.length : ℚ) / (max nonNullValues.length 1 : ℚ)
  let role := detectColumnRole name dataType classification uniqueRatio
  let nullCount := values.length - nonNullValues.length
  let missingIssues : List ColumnIssue :=
    if nullCount > 0 then
      [⟨"missing", nullCount,
        intToStr nullCount ++ " missing values (" ++
          toFixed1 ((nullCount : ℚ) / (values.length : ℚ) * 100) ++ "%)"⟩]
    else []
  let stats : Option NumericStats :=
    if dataType = .numeric then
      some (calculateNumericStats
        ((nonNullValues.map fun v =>
          jsNumberOfString ⟨(jsToString v).data.filter (· ≠ ',')⟩).filterMap id))
    else none
  let numericIssues : List ColumnIssue :=
    match stats with
    | some st =>
      (if st.outlierCount > 0 then
        [⟨"outlier", st.outlierCount,
          intToStr st.outlierCount ++ " outliers detected (IQR method)"⟩]
      else []) ++
      (if (positiveOnlyPatterns.any fun p => strContains (jsToLower name) p) ∧ st.min < 0 then
        let negCount := (((nonNullValues.map fun v =>
          jsNumberOfString ⟨(jsToString v).data.filter (· ≠ ',')⟩).filterMap id).filter
            (fun v => v < 0)).length
        [⟨"invalid_range", negCount, "Unexpected negative values in \"" ++ name ++ "\""⟩]
      else [])
    | none => []
  let categoricalInfo : Option CategoricalInfo :=
    if dataType = .categorical ∨ dataType = .text ∨ dataType = .boolean then
      some (analyzeCategorical (nonNullValues.map jsToString) values.length)
    else none
  let categoricalIssues : List ColumnIssue :=
    match categoricalInfo with
    | some ci =>
      (if ci.inconsistentValues.length > 0 then
        [⟨"inconsistent", ci.inconsistentValues.length,
          intToStr ci.inconsistentValues.length ++ " inconsistent value variations"⟩]
      else []) ++
      (let enc := ((nonNullValues.map jsToString).filter hasEncodingIssue).length
       if enc > 0 then [⟨"encoding", enc, intToStr enc ++ " values with encoding issues"⟩]
       else [])
    | none => []
  let dateInfo : Option DateInfo :=
    if dataType = .date then some (analyzeDate values) else none
  let dateIssues : List ColumnIssue :=
    match dateInfo with
    | some di =>
      if di.invalidDates > 0 then
        [⟨"invalid_date", di.invalidDates, intToStr di.invalidDates ++ " invalid date values"⟩]
      else []
    | none => []
  { name := name
    originalName := name
    dataType := dataType
    classification := classification
    role := role
    nullCount := nullCount
    uniqueCount := uniqueValues.length
    sampleValues := uniqueValues.take 5
    stats := stats
    categoricalInfo := categoricalInfo
    dateInfo := dateInfo
    issues := missingIssues ++ numericIssues ++ categoricalIssues ++ dateIssues
    isTimeSeries := classification = .time_series_numeric
    isDerived := classification = .derived }

/-! ## Dataset classifier and visualization suggestions (`dataAnalyzer.ts`) -/

def datasetPatterns : List (String × List String) :=
  [("sales", ["revenue", "sales", "order", "product", "customer", "price", "quantity", "discount", "profit", "transaction", "invoice"]),
   ("hr", ["employee", "salary", "department", "hire", "manager", "job", "title", "payroll", "leave", "attendance", "join", "staff"]),
   ("finance", ["account", "balance", "debit", "credit", "transaction", "payment", "invoice", "tax", "budget", "expense", "ledger"]),
   ("survey", ["response", "rating", "score", "feedback", "satisfaction", "agree", "disagree", "opinion", "survey", "question", "answer"]),
   ("timeseries", ["timestamp", "datetime", "time", "series", "metric", "value", "measurement", "sensor", "reading", "daily", "monthly"])]

/-- `detectDatasetType` (dataAnalyzer.ts lines 546-586). -/
def detectDatasetType (columns : List ColumnProfile) : String × ℚ :=
  let colNames := columns.map fun c => jsToLower c.name
  let best := datasetPatterns.foldl
    (fun (best : String × Nat) p =>
      let score := (p.2.filter fun kw => colNames.any fun col => strContains col kw).length
      if score > best.2 then (p.1, score) else best)
    ("general", 0)
  let hasDateColumn := columns.any fun c => c.dataType = .date
  let hasTimeSeriesMeasures := columns.any fun c => c.isTimeSeries
  let (bestMatch, bestScore) :=
    if hasDateColumn ∧ hasTimeSeriesMeasures ∧ best.2 < 2 then ("timeseries", 2) else best
  ((if bestScore ≥ 2 then bestMatch else "general"), min ((bestScore : ℚ) / 4) 1)

structure VizFeatures where
  kpis : List String
  filters : List String
  drilldowns : List String
deriving DecidableEq

/-- `suggestVisualizationFeatures` (dataAnalyzer.ts lines 589-641). -/
def suggestVisualizationFeatures (columns : List ColumnProfile) : VizFeatures :=
  let measures := columns.filter fun c => c.role = .measure
  let dimensions := columns.filter fun c => c.role = .dimension
  let dates := columns.filter fun c => c.role = .date
  let kpis := measures.foldl
    (fun acc m =>
      let name := jsToLower m.name
      if strContains name "revenue" ∨ strContains name "sales" ∨ strContains name "amount" then
        acc ++ ["Total " ++ m.name, "Average " ++ m.name]
      else if strContains name "count" ∨ strContains name "quantity" then
        acc ++ ["Total " ++ m.name]
      else if strContains name "profit" ∨ strContains name "margin" then
        acc ++ ["Total " ++ m.name, m.name ++ " %"]
      else acc ++ ["Sum of " ++ m.name])
    []
  let filters :=
    ((dimensions.filter fun d => d.uniqueCount ≤ 25 ∧ d.uniqueCount > 1).map (·.name)) ++
      ["(Includes \"Unknown\" for missing values)"]
  let drilldowns :=
    (dates.map fun d => d.name ++ " (Year → Quarter → Month)") ++
      ((dimensions.filter fun d => d.uniqueCount > 5 ∧ d.uniqueCount ≤ 50).map (·.name))
  ⟨kpis.take 6, filters.take 6, drilldowns.take 4⟩

structure DataDescription where
  rowCount : Nat
  columnCount : Nat
  dateRange : Option String
  timeColumns : List String
  measureColumns : List String
  dimensionColumns : List String
  keyMetrics : List String
  dataQualityScore : Int
  cleaningHighlights : List String
deriving DecidableEq

def groupThousands (digits : List Char) : List Char :=
  (((digits.reverse.toChunks 3).intersperse [',']).flatten).reverse

/-- `x.toLocaleString()` (en-US default: thousands grouping, at most three
fraction digits).  Cosmetic output only; no claim depends on it. -/
def localeNumStr (q : ℚ) : String :=
  let sign := if q < 0 then "-" else ""
  let scaled := ⌊|q| * 1000 + 1 / 2⌋.toNat
  let ip := scaled / 1000
  let fr := scaled % 1000
  let frStr :=
    if fr = 0 then ""
    else
      let padded := (Nat.repr fr).data
      let padded := List.replicate (3 - padded.length) '0' ++ padded
      "." ++ String.mk (padded.reverse.dropWhile (· = '0')).reverse
  sign ++ String.mk (groupThousands (Nat.repr ip).data) ++ frStr

/-- `x.toFixed(2)`. -/
def toFixed2 (q : ℚ) : String :=
  let n := ⌊|q| * 100 + 1 / 2⌋.toNat
  let sign := if q < 0 ∧ n ≠ 0 then "-" else ""
  let fr := n % 100
  sign ++ Nat.repr (n / 100) ++ "." ++ (if fr < 10 then "0" else "") ++ Nat.repr fr

/-- `generateDataDescription` (dataAnalyzer.ts lines 644-681). -/
def generateDataDescription (columns : List ColumnProfile) (rowCount : Nat)
    (cleaningHighlights : List String) : DataDescription :=
  let dateColumns := columns.filter fun c => c.dataType = .date
  let measureColumns := columns.filter fun c => c.role = .measure
  let dimensionColumns := columns.filter fun c => c.role = .dimension
  let dateRange : Option String :=
    match dateColumns.head? with
    | some c =>
      match c.dateInfo with
      | some di => if di.dateRange ≠ "" then some di.dateRange else none
      | none => none
    | none => none
  let totalIssues := (columns.map fun c => c.issues.length).sum
  let avgMissingRate :=
    (columns.map fun c => (c.nullCount : ℚ) / (rowCount : ℚ)).sum / (columns.length : ℚ)
  let qualityScore := max 0 (min 100 (100 - (totalIssues : ℚ) * 5 - avgMissingRate * 50))
  let keyMetrics := (measureColumns.take 4).foldl
    (fun acc m =>
      match m.stats with
      | some st =>
        acc ++ [m.name ++ ": " ++ localeNumStr st.min ++ " - " ++ localeNumStr st.max ++
          " (avg: " ++ toFixed2 st.mean ++ ")"]
      | none => acc)
    []
  { rowCount := rowCount
    columnCount := columns.length
    dateRange := dateRange
    timeColumns := dateColumns.map (·.name)
    measureColumns := measureColumns.map (·.name)
    dimensionColumns := dimensionColumns.map (·.name)
    keyMetrics := keyMetrics
    dataQualityScore := jsRound qualityScore
    cleaningHighlights := cleaningHighlights }

/-! ## Cleaning pipeline (`dataCleaner.ts`, enhanced engine) -/

inductive NumericImputation where
  | mean | median | mode | zero | remove | interpolate
deriving DecidableEq

inductive CategoricalImputation where
  | mode | unknown | remove
deriving DecidableEq

inductive DateImputation where
  | median | forward_fill | backward_fill | remove
deriving DecidableEq

/-- `'zscore'` is omitted from the model: its bounds are `mean ± t·√variance`
with an irrational square root, and no verified claim enables it. -/
inductive OutlierDetection where
  | iqr | none
deriving DecidableEq

inductive OutlierHandling where
  | remove | cap | flag | none
deriving DecidableEq

/-- `CleaningConfig` (dataTypes.ts lines 106-140).  Callers merge partial
configs over `DEFAULT_CLEANING_CONFIG` before the pipeline runs, so the model
takes the fully merged record. -/
structure CleaningConfig where
  numericImputation : NumericImputation
  categoricalImputation : CategoricalImputation
  dateImputation : DateImputation
  outlierDetection : OutlierDetection
  outlierThreshold : ℚ
  outlierHandling : OutlierHandling
  standardizeColumnNames : Bool
  normalizeCategorical : Bool
  trimWhitespace : Bool
  autoConvertTypes : Bool
  parseDates : Bool
  validateRanges : Bool
  removeDuplicates : Bool
  createDateParts : Bool
  enforceZeroBlank : Bool
  enableTimeSeriesInterpolation : Bool
deriving DecidableEq

/-- `DEFAULT_CLEANING_CONFIG` (dataTypes.ts lines 142-159). -/
def DEFAULT_CLEANING_CONFIG : CleaningConfig :=
  { numericImputation := .median
    categoricalImputation := .unknown
    dateImputation := .median
    outlierDetection := .iqr
    outlierThreshold := 3 / 2
    outlierHandling := .cap
    standardizeColumnNames := true
    normalizeCategorical := true
    trimWhitespace := true
    autoConvertTypes := true
    parseDates := true
    validateRanges := true
    removeDuplicates := true
    createDateParts := true
    enforceZeroBlank := true
    enableTimeSeriesInterpolation := true }

structure CleaningAction where
  type : String
  description : String
  count : Nat
  details : Option (List String) := none
deriving DecidableEq

structure CleaningSummary where
  rowsBefore : Nat
  rowsAfter : Nat
  columnsBefore : Nat
  columnsAfter : Nat
  duplicatesRemoved : Nat
  missingValuesHandled : Nat
  outliersHandled : Nat
  columnsRenamed : Nat
  categoricalNormalized : Nat
  typesConverted : Nat
  derivedColumnsCreated : Nat
  datesFixed : Nat
  interpolatedValues : Nat
  totalChanges : Nat
deriving DecidableEq

structure DatasetProfileFull where
  type : String
  confidence : ℚ
  columns : List ColumnProfile
  suggestedKpis : List String
  suggestedFilters : List String
  suggestedDrilldowns : List String
  dataDescription : DataDescription
deriving DecidableEq

structure EnhancedCleaningResult where
  data : List Row
  originalData : List Row
  profile : DatasetProfileFull
  config : CleaningConfig
  actions : List CleaningAction
  summary : CleaningSummary
  derivedColumns : List String
deriving DecidableEq

/-- `isEmpty` (dataCleaner.ts lines 154-158) on a looked-up cell. -/
def isEmptyCell : Cell → Bool
  | none => true
  | some .null => true
  | some (.str s) => jsTrim s = ""
  | _ => false

/-- `isEmpty` on a value present in a row. -/
def isEmptyVal (v : JsValue) : Bool := isEmptyCell (some v)

/-- Collapse each `p`-run to the single character `r` (JS `replace(/X+/g, r)`). -/
def collapseRuns (p : Char → Bool) (r : Char) : List Char → List Char
  | [] => []
  | c :: cs =>
    if p c then r :: collapseRuns p r (cs.dropWhile p)
    else c :: collapseRuns p r cs
termination_by l => l.length
decreasing_by
  · exact Nat.lt_succ_of_le (List.Sublist.length_le (List.dropWhile_sublist _))
  · simp

/-- `standardizeColumnName` (dataCleaner.ts lines 23-30). -/
def standardizeColumnName (name : String) : String :=
  let lowered := jsToLower (jsTrim name)
  let replaced := collapseRuns (fun c => ¬ isLowerAlnum c) '_' lowered.data
  let stripped := ((replaced.dropWhile (· = '_')).reverse.dropWhile (· = '_')).reverse
  ⟨collapseRuns (· = '_') '_' stripped⟩

/-- `parseBoolean` (dataCleaner.ts lines 33-41). -/
def parseBooleanJs (c : Cell) : Option Bool :=
  match c with
  | none => none
  | some .null => none
  | some (.str "") => none
  | some v =>
    let str := jsTrim (jsToLower (jsToString v))
    if str ∈ boolTrueVals then some true
    else if str ∈ boolFalseVals then some false
    else none

/-- `median` (dataCleaner.ts lines 44-49). -/
def medianQ (values : List ℚ) : ℚ :=
  if values.isEmpty then 0
  else
    let sorted := sortByJS qLe values
    let mid := sorted.length / 2
    if sorted.length % 2 = 1 then sorted.getD mid 0
    else (sorted.getD (mid - 1) 0 + sorted.getD mid 0) / 2

/-- Forward fill pass of `interpolateNumeric`. -/
def ffillCarry : Option ℚ → List (Option ℚ) → List (Option ℚ)
  | _, [] => []
  | _, some v :: rest => some v :: ffillCarry (some v) rest
  | some pv, none :: rest => some pv :: ffillCarry (some pv) rest
  | none, none :: rest => none :: ffillCarry none rest

/-- Interior-gap pass of `interpolateNumeric` (in-place loop over indices). -/
def interpPass (l : List (Option ℚ)) : List (Option ℚ) :=
  (List.range l.length).foldl
    (fun cur i =>
      match cur.getD i none with
      | some _ => cur
      | none =>
        let startIdx := ((List.range i).reverse).find? fun j => (cur.getD j none).isSome
        let endIdx := ((List.range (l.length - (i + 1))).map (fun k => i + 1 + k)).find?
          fun j => (cur.getD j none).isSome
        match startIdx, endIdx with
        | some s, some e =>
          let startVal := (cur.getD s none).getD 0
          let endVal := (cur.getD e none).getD 0
          let steps : ℚ := ((e - s : Nat) : ℚ)
          cur.set i (some (startVal + (endVal - startVal) * ((i - s : Nat) : ℚ) / steps))
        | _, _ => cur)
    l

/-- `interpolateNumeric` (dataCleaner.ts lines 72-109): forward fill, backward
fill (the mirrored forward pass), interior interpolation, residual zeros. -/
def interpolateNumeric (values : List (Option ℚ)) : List ℚ :=
  let r := ffillCarry none values
  let r := (ffillCarry none r.reverse).reverse
  let r := interpPass r
  r.map (·.getD 0)

/-- `forwardFillDates` (dataCleaner.ts lines 112-130). -/
def forwardFillDates (nowMs : Int) : Option JSDate → List (Option JSDate) →
    Option JSDate → List JSDate
  | _, [], _ => []
  | _, some d :: rest, medianDate => d :: forwardFillDates nowMs (some d) rest medianDate
  | some lv, none :: rest, medianDate => lv :: forwardFillDates nowMs (some lv) rest medianDate
  | none, none :: rest, medianDate =>
    (medianDate.getD ⟨nowMs⟩) :: forwardFillDates nowMs none rest medianDate

/-- `backwardFillDates` (dataCleaner.ts lines 133-151): the forward scan run
from the right, which is what the descending in-place loop computes. -/
def backwardFillDates (nowMs : Int) (dates : List (Option JSDate))
    (medianDate : Option JSDate) : List JSDate :=
  (forwardFillDates nowMs none dates.reverse medianDate).reverse

/-! ### Pipeline steps -/

/-- Step 1, one row: trim and collapse whitespace on string cells; counts the
changed cells. -/
def trimRow (row : Row) : Row × Nat :=
  row.foldl
    (fun (acc : Row × Nat) kv =>
      match kv.2 with
      | .str s =>
        let trimmed := collapseWs (jsTrim s)
        (acc.1 ++ [(kv.1, .str trimmed)], acc.2 + (if trimmed ≠ s then 1 else 0))
      | v => (acc.1 ++ [(kv.1, v)], acc.2))
    ([], 0)

/-- Step 1 (dataCleaner.ts lines 207-231). -/
def trimStep (rows : List Row) : List Row × Nat :=
  (rows.map (fun r => (trimRow r).1), (rows.map (fun r => (trimRow r).2)).sum)

/-- Step 2, one row: rebuild under the rename map (`columnMapping[key] || key`). -/
def renameRow (cm : List (String × String)) (row : Row) : Row :=
  row.foldl
    (fun acc kv =>
      let mapped :=
        match lookupAssoc kv.1 cm with
        | some m => if m = "" then kv.1 else m
        | none => kv.1
      setKey mapped kv.2 acc)
    []

/-- Columns of a data set: the keys of the first row. -/
def columnsOf (rows : List Row) : List String := (rows.headI).map Prod.fst

/-- Steps 1-2 of the pipeline: the rows the profiler then sees. -/
def preparedRows (data : List Row) (cfg : CleaningConfig) : List Row :=
  let rows1 := if cfg.trimWhitespace then (trimStep data).1 else data
  if cfg.standardizeColumnNames then
    let columnMapping := (columnsOf rows1).map fun c => (c, standardizeColumnName c)
    if columnMapping.any (fun p => p.2 ≠ p.1) then rows1.map (renameRow columnMapping)
    else rows1
  else rows1

/-- Step 3 (dataCleaner.ts lines 273-287): date columns found by a first
profiling pass without context. -/
def pipelineDateColumns (rows : List Row) : List String :=
  (((columnsOf rows).map fun c => profileColumn c (colValues rows c) []).filter
    (fun p => p.dataType = .date)).map (·.name)

/-- Step 3: the context-aware profiles every later step consumes. -/
def pipelineProfiles (data : List Row) (cfg : CleaningConfig) : List ColumnProfile :=
  let rows := preparedRows data cfg
  let dateCols := pipelineDateColumns rows
  (columnsOf rows).map fun c => profileColumn c (colValues rows c) dateCols

def jsonEscapeChar (c : Char) : String :=
  if c = '"' then "\\\""
  else if c = '\\' then "\\\\"
  else if c = '\n' then "\\n"
  else if c = '\r' then "\\r"
  else if c = '\t' then "\\t"
  else String.mk [c]

def jsonEscape (s : String) : String := String.join (s.data.map jsonEscapeChar)

def jsonVal : JsValue → String
  | .null => "null"
  | .bool true => "true"
  | .bool false => "false"
  | .num q => qToString q
  | .str s => "\"" ++ jsonEscape s ++ "\""

/-- `JSON.stringify(row)`, the duplicate-detection key of step 4. -/
def jsonRow (row : Row) : String :=
  "\x7b" ++ String.intercalate ","
    (row.map fun kv => "\"" ++ jsonEscape kv.1 ++ "\":" ++ jsonVal kv.2) ++ "\x7d"

/-- Step 4 (dataCleaner.ts lines 290-310): first occurrence wins. -/
def removeDuplicatesStep (rows : List Row) : List Row := dedupByKey jsonRow [] rows

/-- Step 5, one date column (dataCleaner.ts lines 316-358). -/
def fixDatesForProfile (cfg : CleaningConfig) (nowMs : Int) (p : ColumnProfile)
    (rows : List Row) : List Row × Nat :=
  let values := colValues rows p.name
  let parsedDates := values.map fun c => (parseMultiFormatDate (c.getD .null)).1
  let medianDate := p.dateInfo.bind (·.medianDate)
  let filledDates :=
    match cfg.dateImputation with
    | .forward_fill => forwardFillDates nowMs none parsedDates medianDate
    | .backward_fill => backwardFillDates nowMs parsedDates medianDate
    | _ => parsedDates.map fun (d : Option JSDate) => d.getD (medianDate.getD ⟨nowMs⟩)
  let newRows := rows.enum.map fun ir =>
    let (idx, row) := ir
    let originalVal := lookupKey p.name row
    if isEmptyCell originalVal ∨ parsedDates.getD idx none = none then
      setKey p.name (.str (isoDateString (filledDates.getD idx ⟨nowMs⟩))) row
    else
      match parsedDates.getD idx none with
      | some d => setKey p.name (.str (isoDateString d)) row
      | none => row
  let fixedCount := (rows.enum.filter fun ir =>
    isEmptyCell (lookupKey p.name ir.2) ∨ parsedDates.getD ir.1 none = none).length
  (newRows, fixedCount)

/-- Step 5 over all date-profiled columns; returns rows, `datesFixed`, details. -/
def fixDatesStep (profiles : List ColumnProfile) (cfg : CleaningConfig) (nowMs : Int)
    (rows : List Row) : List Row × Nat × List String :=
  (profiles.filter (fun p => p.dataType = .date)).foldl
    (fun (st : List Row × Nat × List String) p =>
      let (newRows, fixed) := fixDatesForProfile cfg nowMs p st.1
      (newRows, st.2.1 + fixed,
        st.2.2 ++ (if fixed > 0 then [p.name ++ ": " ++ Nat.repr fixed ++ " dates fixed/imputed"] else [])))
    (rows, 0, [])

/-- Step 6, numeric conversion of one row cell. -/
def convertNumericRow (col : String) (row : Row) : Row × Nat :=
  let val := lookupKey col row
  if cellNonNull val then
    let v := val.getD .null
    match jsNumberOfString ⟨(jsToString v).data.filter (· ≠ ',')⟩ with
    | some num =>
      (setKey col (.num num) row,
        match v with | .str _ => 1 | _ => 0)
    | none => (row, 0)
  else (row, 0)

/-- Step 6, boolean conversion of one row cell. -/
def convertBooleanRow (col : String) (row : Row) : Row × Nat :=
  match parseBooleanJs (lookupKey col row) with
  | some b => (setKey col (.bool b) row, 1)
  | none => (row, 0)

/-- Step 6 (dataCleaner.ts lines 372-421); returns rows and detail strings. -/
def convertTypesStep (profiles : List ColumnProfile) (rows : List Row) :
    List Row × List String :=
  profiles.foldl
    (fun (st : List Row × List String) p =>
      let st :=
        if p.dataType = .numeric then
          let converted := ((st.1.map (convertNumericRow p.name)).map Prod.snd).sum
          ((st.1.map (fun r => (convertNumericRow p.name r).1)),
            st.2 ++ (if converted > 0 then [p.name ++ " → numeric"] else []))
        else st
      if p.dataType = .boolean then
        let converted := ((st.1.map (convertBooleanRow p.name)).map Prod.snd).sum
        ((st.1.map (fun r => (convertBooleanRow p.name r).1)),
          st.2 ++ (if converted > 0 then [p.name ++ " → boolean"] else []))
      else st)
    (rows, [])

/-- The strict gender allow-map of step 7 (dataCleaner.ts lines 432-435);
property lookup is case-sensitive on the trimmed raw value. -/
def genderExplicitMappings : List (String × String) :=
  [("m", "Male"), ("male", "Male"), ("M", "Male"), ("MALE", "Male"), ("Male", "Male"),
   ("f", "Female"), ("female", "Female"), ("F", "Female"), ("FEMALE", "Female"),
   ("Female", "Female")]

def protectedColumnPatterns : List String := ["gender", "sex"]

/-- Step 7, gender-integrity rewrite of one row (dataCleaner.ts lines 453-472). -/
def genderNormalizeRow (col : String) (row : Row) : Row × Nat :=
  let val := lookupKey col row
  let inner : JsValue :=
    match val with
    | none => .str ""
    | some v => if jsFalsy v then .str "" else v
  let strVal := jsTrim (jsToString inner)
  if isEmptyCell val then (setKey col (.str "Unknown") row, 1)
  else
    match lookupAssoc strVal genderExplicitMappings with
    | some canonical =>
      if strVal ≠ canonical then (setKey col (.str canonical) row, 1) else (row, 0)
    | none => (setKey col (.str "Unknown") row, 1)

/-- Step 7, standard clustered normalization of one row (lines 481-487). -/
def standardNormalizeRow (col : String) (mappings : List (String × String)) (row : Row) :
    Row × Nat :=
  let val := jsToString
    (((lookupKey col row).map fun v => if jsFalsy v then JsValue.str "" else v).getD (.str ""))
  match lookupAssoc val mappings with
  | some m => if m ≠ "" then (setKey col (.str m) row, 1) else (row, 0)
  | none => (row, 0)

/-- Step 7, loop body for one profile (dataCleaner.ts lines 428-503). -/
def normalizeCatIter (st : List Row × List String) (p : ColumnProfile) :
    List Row × List String :=
  if (p.dataType = .categorical ∨ p.dataType = .text ∨ p.dataType = .boolean) ∧
      p.categoricalInfo.isSome then
    let lowerColName := jsToLower p.name
    let isGenderColumn := protectedColumnPatterns.any fun pat => strContains lowerColName pat
    if isGenderColumn then
      let normalized := ((st.1.map (genderNormalizeRow p.name)).map Prod.snd).sum
      (st.1.map (fun r => (genderNormalizeRow p.name r).1),
        st.2 ++ (if normalized > 0 then
          [p.name ++ ": " ++ Nat.repr normalized ++ " values (gender integrity rule applied)"]
        else []))
    else
      let mappings := ((p.categoricalInfo.map (·.normalizedMappings)).getD [])
      let normalized := ((st.1.map (standardNormalizeRow p.name mappings)).map Prod.snd).sum
      (st.1.map (fun r => (standardNormalizeRow p.name mappings r).1),
        st.2 ++ (if normalized > 0 then
          [p.name ++ ": " ++ Nat.repr normalized ++ " values normalized"]
        else []))
  else st

/-- Step 7 (dataCleaner.ts lines 425-505); returns rows and detail strings. -/
def normalizeCategoricalStep (profiles : List ColumnProfile) (rows : List Row) :
    List Row × List String :=
  profiles.foldl normalizeCatIter (rows, [])

/-- Step 8, capping one row. -/
def capOutlierRow (col : String) (lowerBound upperBound : ℚ) (row : Row) : Row × Nat :=
  match jsNumberOfCell (lookupKey col row) with
  | some v =>
    if v < lowerBound then (setKey col (.num (jsRound2 lowerBound)) row, 1)
    else if v > upperBound then (setKey col (.num (jsRound2 upperBound)) row, 1)
    else (row, 0)
  | none => (row, 0)

/-- Step 8, flagging one row. -/
def flagOutlierRow (col : String) (lowerBound upperBound : ℚ) (row : Row) : Row × Nat :=
  let val := jsNumberOfCell (lookupKey col row)
  let isOut :=
    match val with
    | some v => v < lowerBound ∨ v > upperBound
    | none => false
  (setKey (col ++ "_outlier") (.bool isOut) row, if isOut then 1 else 0)

/-- Step 8, loop body for one profile (dataCleaner.ts lines 509-569). -/
def outlierIter (cfg : CleaningConfig) (st : List Row × List String) (p : ColumnProfile) :
    List Row × List String :=
  match p.stats with
  | some stats =>
    if p.dataType = .numeric ∧ stats.outlierCount > 0 then
      let lowerBound := stats.q1 - cfg.outlierThreshold * stats.iqr
      let upperBound := stats.q3 + cfg.outlierThreshold * stats.iqr
      match cfg.outlierHandling with
      | .cap =>
        let handled := ((st.1.map (capOutlierRow p.name lowerBound upperBound)).map Prod.snd).sum
        (st.1.map (fun r => (capOutlierRow p.name lowerBound upperBound r).1),
          st.2 ++ (if handled > 0 then [p.name ++ ": " ++ Nat.repr handled ++ " capped"] else []))
      | .remove =>
        let kept := st.1.filter fun r =>
          match jsNumberOfCell (lookupKey p.name r) with
          | some v => lowerBound ≤ v ∧ v ≤ upperBound
          | none => true
        let handled := st.1.length - kept.length
        (kept, st.2 ++ (if handled > 0 then [p.name ++ ": " ++ Nat.repr handled ++ " removed"] else []))
      | .flag =>
        let handled := ((st.1.map (flagOutlierRow p.name lowerBound upperBound)).map Prod.snd).sum
        (st.1.map (fun r => (flagOutlierRow p.name lowerBound upperBound r).1),
          st.2 ++ (if handled > 0 then [p.name ++ ": " ++ Nat.repr handled ++ " flagged"] else []))
      | .none => st
    else st
  | none => st

/-- Step 8 (dataCleaner.ts lines 508-571); returns rows and detail strings. -/
def handleOutliersStep (profiles : List ColumnProfile) (cfg : CleaningConfig)
    (rows : List Row) : List Row × List String :=
  profiles.foldl (outlierIter cfg) (rows, [])

def strTake20 (s : String) : String := ⟨s.data.take 20⟩

/-- Fill every empty cell of `col` with `fv`; also the count of filled cells. -/
def applyFillCol (col : String) (fv : JsValue) (rows : List Row) : List Row × Nat :=
  (rows.map fun row => if isEmptyCell (lookupKey col row) then setKey col fv row else row,
    (rows.filter fun row => isEmptyCell (lookupKey col row)).length)

/-- The fill value step 9 chooses for a numeric, non-interpolated column
(dataCleaner.ts lines 613-641), including the skew override. -/
def numericFillValue (cfg : CleaningConfig) (isSkewed : Bool) (numericValues : List ℚ) :
    Option JsValue :=
  let base : Option JsValue :=
    match cfg.numericImputation with
    | .mean => some (.num (if numericValues.length > 0 then
        jsRound2 (numericValues.sum / (numericValues.length : ℚ)) else 0))
    | .median => some (.num (medianQ numericValues))
    | .mode => some (.num ((modeList numericValues).getD 0))
    | .zero => some (.num 0)
    | .interpolate => some (.num (medianQ numericValues))
    | .remove => none
  if isSkewed ∧ cfg.numericImputation = .mean then some (.num (medianQ numericValues))
  else base

/-- Step 9, one profile (dataCleaner.ts lines 576-671): interpolation for
time-series numerics, otherwise the configured fill, applied to empty cells
when zero-blank enforcement is on.  State: rows, action details,
`interpolatedValues`. -/
def handleMissingForProfile (cfg : CleaningConfig) (p : ColumnProfile)
    (st : List Row × List String × Nat) : List Row × List String × Nat :=
  if p.nullCount = 0 then st
  else
    let rows := st.1
    let values := colValues rows p.name
    let nonNullJs := (values.filter fun c => ¬ isEmptyCell c).filterMap id
    if p.dataType = .numeric then
      if p.isTimeSeries ∧ cfg.enableTimeSeriesInterpolation then
        let numericWithNulls := values.map fun c =>
          if isEmptyCell c then none else jsNumberOfCell c
        let interpolated := interpolateNumeric numericWithNulls
        let newRows := rows.enum.map fun ir =>
          if isEmptyCell (lookupKey p.name ir.2) then
            setKey p.name (.num (jsRound2 (interpolated.getD ir.1 0))) ir.2
          else ir.2
        let interpCount := (rows.filter fun row => isEmptyCell (lookupKey p.name row)).length
        (newRows,
          st.2.1 ++ (if interpCount > 0 then
            [p.name ++ ": " ++ Nat.repr interpCount ++ " → interpolated (time-series)"] else []),
          st.2.2 + interpCount)
      else
        let numericValues := (nonNullJs.map jsNumber).filterMap id
        let isSkewed := (p.stats.map (·.isSkewed)).getD false
        let fillValue := numericFillValue cfg isSkewed numericValues
        match fillValue with
        | some fv =>
          if cfg.enforceZeroBlank then
            let (newRows, filled) := applyFillCol p.name fv rows
            (newRows,
              st.2.1 ++ (if filled > 0 then
                [p.name ++ ": " ++ Nat.repr filled ++ " → " ++ strTake20 (jsToString fv)] else []),
              st.2.2)
          else st
        | none => st
    else if p.dataType = .categorical ∨ p.dataType = .text then
      let missingPct := (p.categoricalInfo.map (·.missingPercentage)).getD 0
      let fv : JsValue :=
        if missingPct > 30 ∨ cfg.categoricalImputation = .unknown then .str "Unknown"
        else .str ((modeList (nonNullJs.map jsToString)).getD "Unknown")
      if cfg.enforceZeroBlank then
        let (newRows, filled) := applyFillCol p.name fv rows
        (newRows,
          st.2.1 ++ (if filled > 0 then
            [p.name ++ ": " ++ Nat.repr filled ++ " → " ++ strTake20 (jsToString fv)] else []),
          st.2.2)
      else st
    else if p.dataType = .boolean then
      if cfg.enforceZeroBlank then
        let (newRows, filled) := applyFillCol p.name (.bool false) rows
        (newRows,
          st.2.1 ++ (if filled > 0 then
            [p.name ++ ": " ++ Nat.repr filled ++ " → false"] else []),
          st.2.2)
      else st
    else st

/-- Step 9, fill portion, over all profiles. -/
def handleMissingFill (profiles : List ColumnProfile) (cfg : CleaningConfig)
    (rows : List Row) : List Row × List String × Nat :=
  profiles.foldl (fun st p => handleMissingForProfile cfg p st) (rows, [], 0)

/-- Step 9, `remove` sweep (dataCleaner.ts lines 674-683). -/
def removeMissingRows (cfg : CleaningConfig) (rows : List Row) : List Row × List String :=
  if cfg.numericImputation = .remove ∨ cfg.categoricalImputation = .remove then
    let kept := rows.filter fun row => ¬ row.any fun kv => isEmptyVal kv.2
    let removed := rows.length - kept.length
    (kept, if removed > 0 then ["Removed " ++ Nat.repr removed ++ " rows with missing values"] else [])
  else (rows, [])

def monthFullNames : List String :=
  ["January", "February", "March", "April", "May", "June",
   "July", "August", "September", "October", "November", "December"]

def dayNames : List String :=
  ["Sunday", "Monday", "Tuesday", "Wednesday", "Thursday", "Friday", "Saturday"]

/-- Step 10, the five derived cells written for one row from a date. -/
def writeDateParts (base : String) (year : Int) (quarter : String) (month : Int)
    (monthName dayOfWeek : String) (row : Row) : Row :=
  setKey (base ++ "_day_of_week") (.str dayOfWeek)
    (setKey (base ++ "_month_name") (.str monthName)
      (setKey (base ++ "_month") (.num month)
        (setKey (base ++ "_quarter") (.str quarter)
          (setKey (base ++ "_year") (.num year) row))))

/-- Step 10, one date column (dataCleaner.ts lines 701-741). -/
def derivedForProfile (nowMs : Int) (p : ColumnProfile) (rows : List Row) : List Row :=
  let medianDate := (p.dateInfo.bind (·.medianDate)).getD ⟨nowMs⟩
  let fallbackYear := medianDate.getFullYear
  let fallbackQuarter := "Q" ++ intToStr (Int.fdiv medianDate.getMonth 3 + 1)
  let fallbackMonth := medianDate.getMonth + 1
  let fallbackMonthName := monthFullNames.getD medianDate.getMonth.toNat "January"
  let fallbackDayOfWeek := dayNames.getD medianDate.getDay.toNat "Sunday"
  rows.map fun row =>
    match (parseMultiFormatDate ((lookupKey p.name row).getD .null)).1 with
    | some d =>
      writeDateParts p.name d.getFullYear ("Q" ++ intToStr (Int.fdiv d.getMonth 3 + 1))
        (d.getMonth + 1) (monthFullNames.getD d.getMonth.toNat "January")
        (dayNames.getD d.getDay.toNat "Sunday") row
    | none =>
      writeDateParts p.name fallbackYear fallbackQuarter fallbackMonth fallbackMonthName
        fallbackDayOfWeek row

/-- Step 10, loop body for one date column. -/
def datePartsIter (nowMs : Int) (st : List Row × List String) (p : ColumnProfile) :
    List Row × List String :=
  (derivedForProfile nowMs p st.1,
    st.2 ++ [p.name ++ "_year", p.name ++ "_quarter", p.name ++ "_month",
      p.name ++ "_month_name", p.name ++ "_day_of_week"])

/-- Step 10 (dataCleaner.ts lines 698-752); returns rows and derived names. -/
def createDatePartsStep (profiles : List ColumnProfile) (nowMs : Int) (rows : List Row) :
    List Row × List String :=
  (profiles.filter (fun p => p.dataType = .date)).foldl (datePartsIter nowMs) (rows, [])

def rangePositivePatterns : List String :=
  ["price", "cost", "amount", "quantity", "qty", "count",
   "age", "revenue", "sales", "units", "weight", "height", "width", "length", "salary"]

/-- Step 11, one profile: absolute value, percent cap, age clamp, in source
order (dataCleaner.ts lines 758-819); returns rows and detail strings. -/
def validateRangesForProfile (p : ColumnProfile) (st : List Row × List String) :
    List Row × List String :=
  if p.dataType = .numeric then
    let name := jsToLower p.name
    let st :=
      if rangePositivePatterns.any (fun pat => strContains name pat) then
        let corrected := (st.1.filter fun row =>
          match jsNumberOfCell (lookupKey p.name row) with
          | some v => v < 0
          | none => false).length
        (st.1.map fun row =>
          match jsNumberOfCell (lookupKey p.name row) with
          | some v => if v < 0 then setKey p.name (.num |v|) row else row
          | none => row,
          st.2 ++ (if corrected > 0 then
            [p.name ++ ": " ++ Nat.repr corrected ++ " negative → positive"] else []))
      else st
    let st :=
      if strContains name "percent" ∨ strContains name "pct" ∨ strContains name "rate" then
        let corrected := (st.1.filter fun row =>
          match jsNumberOfCell (lookupKey p.name row) with
          | some v => v > 100
          | none => false).length
        (st.1.map fun row =>
          match jsNumberOfCell (lookupKey p.name row) with
          | some v => if v > 100 then setKey p.name (.num 100) row else row
          | none => row,
          st.2 ++ (if corrected > 0 then
            [p.name ++ ": " ++ Nat.repr corrected ++ " values capped at 100%"] else []))
      else st
    if strContains name "age" then
      let corrected := (st.1.filter fun row =>
        match jsNumberOfCell (lookupKey p.name row) with
        | some v => v > 120 ∨ v < 0
        | none => false).length
      (st.1.map fun row =>
        match jsNumberOfCell (lookupKey p.name row) with
        | some v =>
          if v > 120 then setKey p.name (.num 120) row
          else if v < 0 then setKey p.name (.num 0) row
          else row
        | none => row,
        st.2 ++ (if corrected > 0 then
          [p.name ++ ": " ++ Nat.repr corrected ++ " ages constrained to 0-120"] else []))
    else st
  else st

/-- Step 11 over all profiles. -/
def validateRangesStep (profiles : List ColumnProfile) (rows : List Row) :
    List Row × List String :=
  profiles.foldl (fun st p => validateRangesForProfile p st) (rows, [])

/-- Step 12, default for a still-empty cell (dataCleaner.ts lines 839-851). -/
def zeroBlankDefault (profiles : List ColumnProfile) (nowMs : Int) (key : String) : JsValue :=
  match profiles.find? (fun p => p.name = key) with
  | some p =>
    if p.dataType = .numeric then .num 0
    else if p.dataType = .date then .str (isoDateString ⟨nowMs⟩)
    else .str "Unknown"
  | none => .str "Unknown"

/-- Step 12, one row. -/
def zeroBlankRow (profiles : List ColumnProfile) (nowMs : Int) (row : Row) : Row :=
  row.map fun kv =>
    if isEmptyVal kv.2 then (kv.1, zeroBlankDefault profiles nowMs kv.1) else kv

/-- Step 12 (dataCleaner.ts lines 832-864); returns rows and `blanksFixed`. -/
def zeroBlankStep (profiles : List ColumnProfile) (nowMs : Int) (rows : List Row) :
    List Row × Nat :=
  (rows.map (zeroBlankRow profiles nowMs),
    (rows.map fun row => (row.filter fun kv => isEmptyVal kv.2).length).sum)

/-- `createEmptySummary` (dataCleaner.ts lines 915-932). -/
def createEmptySummary : CleaningSummary :=
  ⟨0, 0, 0, 0, 0, 0, 0, 0, 0, 0, 0, 0, 0, 0⟩

/-- The rows of the result `data`, i.e. the pipeline's steps 1-12 applied in
source order; later theorems reason step by step through this definition. -/
def pipelineRows (data : List Row) (cfg : CleaningConfig) (nowMs : Int) : List Row :=
  let rows := preparedRows data cfg
  let profiles := pipelineProfiles data cfg
  let rows := if cfg.removeDuplicates then removeDuplicatesStep rows else rows
  let rows := if cfg.parseDates then (fixDatesStep profiles cfg nowMs rows).1 else rows
  let rows := if cfg.autoConvertTypes then (convertTypesStep profiles rows).1 else rows
  let rows := if cfg.normalizeCategorical then (normalizeCategoricalStep profiles rows).1 else rows
  let rows :=
    if cfg.outlierDetection ≠ .none ∧ cfg.outlierHandling ≠ .none then
      (handleOutliersStep profiles cfg rows).1
    else rows
  let rows := (handleMissingFill profiles cfg rows).1
  let rows := (removeMissingRows cfg rows).1
  let rows := if cfg.createDateParts then (createDatePartsStep profiles nowMs rows).1 else rows
  let rows := if cfg.validateRanges then (validateRangesStep profiles rows).1 else rows
  if cfg.enforceZeroBlank then (zeroBlankStep profiles nowMs rows).1 else rows

/-- The ordered `CleaningAction` log of the same run. -/
def pipelineActions (data : List Row) (cfg : CleaningConfig) (nowMs : Int) :
    List CleaningAction :=
  let rows0 := if cfg.trimWhitespace then (trimStep data).1 else data
  let trimCount := if cfg.trimWhitespace then (trimStep data).2 else 0
  let a1 : List CleaningAction :=
    if cfg.trimWhitespace ∧ trimCount > 0 then
      [⟨"trim_whitespace", "Trimmed whitespace from text values", trimCount, none⟩]
    else []
  let renamedDetails : List String :=
    if cfg.standardizeColumnNames then
      (((columnsOf rows0).map fun c => (c, standardizeColumnName c)).filter
        (fun p => p.2 ≠ p.1)).map fun p => p.1 ++ " → " ++ p.2
    else []
  let a2 : List CleaningAction :=
    if renamedDetails ≠ [] then
      [⟨"rename_columns", "Standardized column names to snake_case",
        renamedDetails.length, some (renamedDetails.take 10)⟩]
    else []
  let rows := preparedRows data cfg
  let profiles := pipelineProfiles data cfg
  let removedCount := if cfg.removeDuplicates then rows.length - (removeDuplicatesStep rows).length else 0
  let a4 : List CleaningAction :=
    if removedCount > 0 then [⟨"remove_duplicates", "Removed duplicate rows", removedCount, none⟩]
    else []
  let rows := if cfg.removeDuplicates then removeDuplicatesStep rows else rows
  let dateFix := if cfg.parseDates then (fixDatesStep profiles cfg nowMs rows).2 else (0, [])
  let a5 : List CleaningAction :=
    if dateFix.2 ≠ [] then
      [⟨"fix_dates", "Fixed and imputed invalid/missing dates", dateFix.1, some dateFix.2⟩]
    else []
  let rows := if cfg.parseDates then (fixDatesStep profiles cfg nowMs rows).1 else rows
  let convDetails := if cfg.autoConvertTypes then (convertTypesStep profiles rows).2 else []
  let a6 : List CleaningAction :=
    if convDetails ≠ [] then
      [⟨"convert_types", "Converted data types", convDetails.length, some convDetails⟩]
    else []
  let rows := if cfg.autoConvertTypes then (convertTypesStep profiles rows).1 else rows
  let normDetails := if cfg.normalizeCategorical then (normalizeCategoricalStep profiles rows).2 else []
  let a7 : List CleaningAction :=
    if normDetails ≠ [] then
      [⟨"normalize_categorical", "Normalized categorical values (gender uses strict integrity rules)",
        normDetails.length, some normDetails⟩]
    else []
  let rows := if cfg.normalizeCategorical then (normalizeCategoricalStep profiles rows).1 else rows
  let outlierOn := cfg.outlierDetection ≠ .none ∧ cfg.outlierHandling ≠ .none
  let outlierDetails := if outlierOn then (handleOutliersStep profiles cfg rows).2 else []
  let a8 : List CleaningAction :=
    if outlierDetails ≠ [] then
      [⟨"handle_outliers", "Handled outliers using IQR method", outlierDetails.length,
        some outlierDetails⟩]
    else []
  let rows := if outlierOn then (handleOutliersStep profiles cfg rows).1 else rows
  let fillRes := handleMissingFill profiles cfg rows
  let rows := fillRes.1
  let removeRes := removeMissingRows cfg rows
  let rows := removeRes.1
  let missingActions := fillRes.2.1 ++ removeRes.2
  let a9 : List CleaningAction :=
    if missingActions ≠ [] then
      [⟨"handle_missing", "Handled missing values intelligently", missingActions.length,
        some missingActions⟩]
    else []
  let derived := if cfg.createDateParts then (createDatePartsStep profiles nowMs rows).2 else []
  let a10 : List CleaningAction :=
    if derived ≠ [] then
      [⟨"create_derived", "Created derived date columns (Year, Quarter, Month, Day of Week)",
        derived.length, some derived⟩]
    else []
  let rows := if cfg.createDateParts then (createDatePartsStep profiles nowMs rows).1 else rows
  let rangeDetails := if cfg.validateRanges then (validateRangesStep profiles rows).2 else []
  let a11 : List CleaningAction :=
    if rangeDetails ≠ [] then
      [⟨"validate_ranges", "Validated and corrected value ranges", rangeDetails.length,
        some rangeDetails⟩]
    else []
  let rows := if cfg.validateRanges then (validateRangesStep profiles rows).1 else rows
  let blanksFixed := if cfg.enforceZeroBlank then (zeroBlankStep profiles nowMs rows).2 else 0
  let a12 : List CleaningAction :=
    if blanksFixed > 0 then
      [⟨"zero_blank_enforcement", "Applied zero-blank rule to remaining empty values",
        blanksFixed, none⟩]
    else []
  a1 ++ a2 ++ a4 ++ a5 ++ a6 ++ a7 ++ a8 ++ a9 ++ a10 ++ a11 ++ a12

/-- `datesFixed` / `interpolatedValues` counters of the run. -/
def pipelineCounters (data : List Row) (cfg : CleaningConfig) (nowMs : Int) : Nat × Nat :=
  let rows := preparedRows data cfg
  let profiles := pipelineProfiles data cfg
  let rows := if cfg.removeDuplicates then removeDuplicatesStep rows else rows
  let datesFixed := if cfg.parseDates then (fixDatesStep profiles cfg nowMs rows).2.1 else 0
  let rows := if cfg.parseDates then (fixDatesStep profiles cfg nowMs rows).1 else rows
  let rows := if cfg.autoConvertTypes then (convertTypesStep profiles rows).1 else rows
  let rows := if cfg.normalizeCategorical then (normalizeCategoricalStep profiles rows).1 else rows
  let rows :=
    if cfg.outlierDetection ≠ .none ∧ cfg.outlierHandling ≠ .none then
      (handleOutliersStep profiles cfg rows).1
    else rows
  (datesFixed, (handleMissingFill profiles cfg rows).2.2)

/-- The pipeline's cleaning highlights, in source order (only those the claims
never inspect are summarized loosely would be unfaithful, so all are built
exactly as the source builds them except that step-specific counts reuse the
step functions above). -/
def pipelineHighlights (data : List Row) (cfg : CleaningConfig) (nowMs : Int) : List String :=
  let actions := pipelineActions data cfg nowMs
  let counters := pipelineCounters data cfg nowMs
  (actions.foldl
    (fun acc a =>
      if a.type = "trim_whitespace" then
        acc ++ ["Cleaned " ++ Nat.repr a.count ++ " whitespace issues"]
      else if a.type = "rename_columns" then
        acc ++ ["Renamed " ++ Nat.repr a.count ++ " columns to snake_case"]
      else if a.type = "remove_duplicates" then
        acc ++ ["Removed " ++ Nat.repr a.count ++ " duplicate records"]
      else if a.type = "fix_dates" then
        acc ++ ["Fixed " ++ Nat.repr counters.1 ++ " date values using " ++
          (match cfg.dateImputation with
           | .median => "median" | .forward_fill => "forward_fill"
           | .backward_fill => "backward_fill" | .remove => "remove") ++ " imputation"]
      else if a.type = "normalize_categorical" then
        acc ++ ["Standardized " ++ Nat.repr a.count ++ " categorical columns"]
      else if a.type = "handle_outliers" then
        acc ++ ["Treated outliers in " ++ Nat.repr a.count ++ " numeric columns"]
      else if a.type = "handle_missing" then
        acc ++ ["Imputed missing values in " ++ Nat.repr a.count ++ " columns"]
      else if a.type = "create_derived" then
        acc ++ ["Created " ++ Nat.repr a.count ++ " derived date fields"]
      else if a.type = "validate_ranges" then
        acc ++ ["Fixed range issues in " ++ Nat.repr a.count ++ " columns"]
      else acc)
    [])

/-- `cleanDataAdvanced` (dataCleaner.ts lines 161-913).  `nowMs` threads the
wall clock (`new Date()`) used only by last-resort fallbacks. -/
def cleanDataAdvanced (data : List Row) (cfg : CleaningConfig) (nowMs : Int) :
    EnhancedCleaningResult :=
  let originalData := data.map id
  if data.isEmpty then
    { data := []
      originalData := []
      profile :=
        { type := "general"
          confidence := 0
          columns := []
          suggestedKpis := []
          suggestedFilters := []
          suggestedDrilldowns := []
          dataDescription := ⟨0, 0, none, [], [], [], [], 100, []⟩ }
      config := cfg
      actions := []
      summary := createEmptySummary
      derivedColumns := [] }
  else
    let profiles := pipelineProfiles data cfg
    let cleanedData := pipelineRows data cfg nowMs
    let actions := pipelineActions data cfg nowMs
    let (datesFixed, interpolatedValues) := pipelineCounters data cfg nowMs
    let cleaningHighlights := pipelineHighlights data cfg nowMs
    let derivedColumns :=
      if cfg.createDateParts then
        ((profiles.filter (fun p => p.dataType = .date)).map fun p =>
          [p.name ++ "_year", p.name ++ "_quarter", p.name ++ "_month",
           p.name ++ "_month_name", p.name ++ "_day_of_week"]).flatten
      else []
    let dateColumnNames := pipelineDateColumns (preparedRows data cfg)
    let finalColumns := columnsOf cleanedData
    let finalProfiles := finalColumns.map fun c =>
      profileColumn c (colValues cleanedData c) dateColumnNames
    let (datasetType, confidence) := detectDatasetType finalProfiles
    let viz := suggestVisualizationFeatures finalProfiles
    let dataDescription := generateDataDescription finalProfiles cleanedData.length cleaningHighlights
    let findCount := fun (t : String) =>
      ((actions.find? fun a => a.type = t).map (·.count)).getD 0
    { data := cleanedData
      originalData := originalData
      profile :=
        { type := datasetType
          confidence := confidence
          columns := finalProfiles
          suggestedKpis := viz.kpis
          suggestedFilters := viz.filters
          suggestedDrilldowns := viz.drilldowns
          dataDescription := dataDescription }
      config := cfg
      actions := actions
      summary :=
        { rowsBefore := originalData.length
          rowsAfter := cleanedData.length
          columnsBefore := (data.headI.map Prod.fst).length
          columnsAfter := finalColumns.length
          duplicatesRemoved := findCount "remove_duplicates"
          missingValuesHandled := findCount "handle_missing"
          outliersHandled := findCount "handle_outliers"
          columnsRenamed := findCount "rename_columns"
          categoricalNormalized := findCount "normalize_categorical"
          typesConverted := findCount "convert_types"
          derivedColumnsCreated := derivedColumns.length
          datesFixed := datesFixed
          interpolatedValues := interpolatedValues
          totalChanges := (actions.map (·.count)).sum }
      derivedColumns := derivedColumns }

/-! ### Claim-level predicates and concrete instances -/

/-- The gender allow-list of the specification. -/
def genderAllowList : List JsValue := [.str "Male", .str "Female", .str "Unknown"]

/-- Invariant actually maintained for a protected column: the literal
`"Unknown"`, or a value whose trimmed string form is a canonical gender (the
no-rewrite branch of the integrity rule keeps such a value verbatim).  When
whitespace trimming has run, a string cell of this shape is exactly `"Male"`
or `"Female"`. -/
def genderOk (v : JsValue) : Prop :=
  v = .str "Unknown" ∨ jsTrim (jsToString v) = "Male" ∨ jsTrim (jsToString v) = "Female"

instance : DecidablePred genderOk := fun v => by unfold genderOk; infer_instance

/-- All cells of column `col` hold a `genderOk` value. -/
def GenderInv (col : String) (rows : List Row) : Prop :=
  ∀ row ∈ rows, ∃ v, lookupKey col row = some v ∧ genderOk v

/-- A minimal configuration: every optional step disabled. -/
def cfgOff : CleaningConfig :=
  { numericImputation := .median
    categoricalImputation := .unknown
    dateImputation := .median
    outlierDetection := .none
    outlierThreshold := 3 / 2
    outlierHandling := .none
    standardizeColumnNames := false
    normalizeCategorical := false
    trimWhitespace := false
    autoConvertTypes := false
    parseDates := false
    validateRanges := false
    removeDuplicates := false
    createDateParts := false
    enforceZeroBlank := false
    enableTimeSeriesInterpolation := false }

/-- The spec's gender example: one `gender` column `['M','female','xyz','']`. -/
def genderExampleRows : List Row :=
  [[("gender", .str "M")], [("gender", .str "female")],
   [("gender", .str "xyz")], [("gender", .str "")]]

/-- C1 counterexample (a): an outlier-flag sibling column named over a
protected column.  `sex_code` is numeric with one IQR outlier; flagging
rewrites the categorical column `sex_code_outlier`. -/
def c1FlagRows : List Row :=
  [[("sex_code", .num (21 / 2)), ("sex_code_outlier", .str "alpha")],
   [("sex_code", .num (21 / 2)), ("sex_code_outlier", .str "beta")],
   [("sex_code", .num (21 / 2)), ("sex_code_outlier", .str "gamma")],
   [("sex_code", .num (21 / 2)), ("sex_code_outlier", .str "delta")],
   [("sex_code", .num (3999 / 4)), ("sex_code_outlier", .str "eps")]]

def c1FlagCfg : CleaningConfig :=
  { cfgOff with normalizeCategorical := true, outlierDetection := .iqr, outlierHandling := .flag }

/-- C1 counterexample (b): with whitespace trimming off, `" Male "` maps to
its own canonical form and is kept verbatim. -/
def c1TrimRows : List Row :=
  [[("gender", .str " Male ")], [("gender", .str "xx")], [("gender", .str "yy")]]

def c1TrimCfg : CleaningConfig := { cfgOff with normalizeCategorical := true }

/-- C2 witness data: a null numeric cell and an empty categorical cell. -/
def c2Rows : List Row :=
  [[("a", .null), ("b", .str "x")], [("a", .num 1), ("b", .str "")]]

def c2Cfg : CleaningConfig := { cfgOff with enforceZeroBlank := true }

/-- C6/C7 concrete instance from the specification. -/
def idNameSchema : TargetSchema :=
  ⟨[{ name := "id", type := .string }, { name := "name", type := .string }]⟩

def idNameMappings : List (String × String) := [("id", "id"), ("name", "name")]

def aliceRows : List Row :=
  [[("id", .str "1"), ("name", .str "Alice")],
   [("id", .str "1"), ("name", .str "Alice")],
   [("id", .str "2"), ("name", .str "Bob")]]

/-- C8 witness: a right-skewed column `val` with one missing cell. -/
def c8Rows : List Row :=
  [[("val", .num 1)], [("val", .num 1)], [("val", .num 1)],
   [("val", .num 1)], [("val", .num 10)], [("val", .null)]]

def c8Cfg : CleaningConfig :=
  { cfgOff with numericImputation := .mean, enforceZeroBlank := true }

def c8Profiles : List ColumnProfile := pipelineProfiles c8Rows c8Cfg

/-- C9 counterexample: exactly 17 of 20 sampled values numeric-parseable. -/
def c9Rows : List Row :=
  ((List.range 17).map fun i => [("v", JsValue.str ("10." ++ Nat.repr (i + 1)))]) ++
    [[("v", JsValue.str "abc")], [("v", JsValue.str "defx")], [("v", JsValue.str "ghi")]]

/-- C9 witness: a fully numeric column. -/
def c9AllNumRows : List Row := [[("x", .num 1)], [("x", .num 2)]]

/-! # Theorems -/

theorem lookupKey_setKey_self (col : String) (v : JsValue) (row : Row) :
    lookupKey col (setKey col v row) = some v := by
  induction row with
  | nil => simp [setKey, lookupKey]
  | cons kv rest ih =>
    by_cases h : kv.1 = col
    · simp [setKey, lookupKey, h]
    · simp [setKey, lookupKey, h, ih]

theorem lookupKey_setKey_ne {k col : String} (h : k ≠ col) (v : JsValue) (row : Row) :
    lookupKey col (setKey k v row) = lookupKey col row := by
  induction row with
  | nil => simp [setKey, lookupKey, h]
  | cons kv rest ih =>
    by_cases hk : kv.1 = k
    · simp [setKey, lookupKey, hk, h]
    · simp [setKey, lookupKey, hk, ih]

theorem mem_dropWhile_of_mem {p : Char → Bool} {c : Char} {l : List Char}
    (hc : c ∈ l) (hp : p c = false) : c ∈ l.dropWhile p := by
  have hsplit := List.takeWhile_append_dropWhile (p := p) (l := l)
  rw [← hsplit] at hc
  rcases List.mem_append.mp hc with h | h
  · exact absurd (List.mem_takeWhile_imp h) (by simp [hp])
  · exact h

theorem trimChars_ne_nil {cs : List Char} {c : Char} (hc : c ∈ cs)
    (hw : isWsChar c = false) : trimChars cs ≠ [] := by
  unfold trimChars
  intro hnil
  have h1 : c ∈ (cs.dropWhile isWsChar) := mem_dropWhile_of_mem hc hw
  have h2 : c ∈ (cs.dropWhile isWsChar).reverse := List.mem_reverse.mpr h1
  have h3 : c ∈ (cs.dropWhile isWsChar).reverse.dropWhile isWsChar :=
    mem_dropWhile_of_mem h2 hw
  have h4 : c ∈ ((cs.dropWhile isWsChar).reverse.dropWhile isWsChar).reverse :=
    List.mem_reverse.mpr h3
  rw [hnil] at h4
  exact absurd h4 (List.not_mem_nil c)

theorem isoDateString_not_blank (dt : JSDate) : isEmptyVal (.str (isoDateString dt)) = false := by
  have hmem : ('-' : Char) ∈ (isoDateString dt).data := by
    unfold isoDateString
    simp only [String.data_append, List.mem_append]
    left; left; left; right
    decide
  have hne : trimChars (isoDateString dt).data ≠ [] := trimChars_ne_nil hmem (by decide)
  have hts : jsTrim (isoDateString dt) ≠ "" := fun hth => hne (congrArg String.data hth)
  exact decide_eq_false hts

theorem zeroBlankDefault_not_empty (profiles : List ColumnProfile) (nowMs : Int) (key : String) :
    isEmptyVal (zeroBlankDefault profiles nowMs key) = false := by
  unfold zeroBlankDefault
  cases h : profiles.find? (fun p => p.name = key) with
  | none => simp only [h]; decide
  | some p =>
    simp only [h]
    by_cases h1 : p.dataType = .numeric
    · rw [if_pos h1]; decide
    · by_cases h2 : p.dataType = .date
      · rw [if_neg h1, if_pos h2]; exact isoDateString_not_blank _
      · rw [if_neg h1, if_neg h2]; decide

/-- C10: `cleanDataAdvanced` returns the caller's rows, value-equal, in its
`originalData` field (the defensive copy made at entry); the pure embedding
operates only on the working copy, never on the input list. -/
theorem cleanDataAdvanced_preserves_originalData (data : List Row) (cfg : CleaningConfig)
    (nowMs : Int) : (cleanDataAdvanced data cfg nowMs).originalData = data := by
  cases data with
  | nil => rfl
  | cons r rest =>
    show (r :: rest).map id = r :: rest
    exact List.map_id _

/-- C2: with `enforceZeroBlank` on, every cell present in every returned data
row is neither null nor undefined nor a blank string — the final zero-blank
sweep fills every remaining empty cell with a non-empty type default. -/
theorem zero_blank_invariant (data : List Row) (cfg : CleaningConfig) (nowMs : Int)
    (hz : cfg.enforceZeroBlank = true) (hne : data ≠ []) :
    ∀ row ∈ (cleanDataAdvanced data cfg nowMs).data, ∀ kv ∈ row, isEmptyVal kv.2 = false := by
  have hdata : (cleanDataAdvanced data cfg nowMs).data = pipelineRows data cfg nowMs := by
    cases data with
    | nil => exact absurd rfl hne
    | cons r rest => rfl
  rw [hdata]
  unfold pipelineRows
  rw [hz]
  simp only [if_true]
  intro row hrow kv hkv
  simp only [zeroBlankStep, List.mem_map] at hrow
  obtain ⟨r, _, hr⟩ := hrow
  subst hr
  simp only [zeroBlankRow, List.mem_map] at hkv
  obtain ⟨kv', _, hkv'⟩ := hkv
  by_cases he : isEmptyVal kv'.2 = true
  · simp only [he, if_true] at hkv'
    rw [← hkv']
    exact zeroBlankDefault_not_empty _ _ _
  · simp only [Bool.not_eq_true] at he
    simp only [he, Bool.false_eq_true, if_false] at hkv'
    rw [← hkv']
    exact he

theorem levChars_le_max (a b : List Char) : levChars a b ≤ max a.length b.length := by
  induction a generalizing b with
  | nil => cases b <;> simp [levChars]
  | cons x xs ih =>
    cases b with
    | nil => simp [levChars]
    | cons y ys =>
      have hmin : levChars (x :: xs) (y :: ys) ≤ levChars xs ys + (if x = y then 0 else 1) := by
        simp only [levChars]
        exact min_le_right _ _
      have h := ih ys
      have hcost : (if x = y then 0 else 1) ≤ 1 := by split <;> omega
      simp only [List.length_cons]
      omega

theorem normalize_max_pos {a b : String} (h : normalize a ≠ normalize b) :
    1 ≤ max (normalize a).data.length (normalize b).data.length := by
  by_contra hc
  push_neg at hc
  have h1 : (normalize a).data.length = 0 := by omega
  have h2 : (normalize b).data.length = 0 := by omega
  apply h
  have e1 : (normalize a).data = [] := List.length_eq_zero.mp h1
  have e2 : (normalize b).data = [] := List.length_eq_zero.mp h2
  cases ha : normalize a with
  | mk la =>
    cases hb : normalize b with
    | mk lb =>
      rw [ha] at e1
      rw [hb] at e2
      simp at e1 e2
      rw [e1, e2]

/-- C5: `stringSimilarity` is an integer-valued rational in `[0, 100]`; it is
`100` exactly on equal normalized forms (including two empty normalizations),
and otherwise equals `round((1 − levenshteinDistance/maxLen) × 100)`.  The
lower bound rests on the edit distance never exceeding the longer length. -/
theorem stringSimilarity_spec (a b : String) :
    (stringSimilarity a b).den = 1 ∧
    0 ≤ stringSimilarity a b ∧ stringSimilarity a b ≤ 100 ∧
    stringSimilarity a b =
      (if normalize a = normalize b then (100 : ℚ)
       else (jsRound ((1 - (levenshteinDistance (normalize a) (normalize b) : ℚ) /
          (max ((normalize a).data.length : ℚ) ((normalize b).data.length : ℚ))) * 100) : ℚ)) := by
  by_cases h : normalize a = normalize b
  · refine ⟨?_, ?_, ?_, ?_⟩ <;> simp [stringSimilarity, h]
  · have hmaxN : 1 ≤ max (normalize a).data.length (normalize b).data.length :=
      normalize_max_pos h
    have hdN : levenshteinDistance (normalize a) (normalize b) ≤
        max (normalize a).data.length (normalize b).data.length := levChars_le_max _ _
    set mN := max (normalize a).data.length (normalize b).data.length with hmN
    have hcast : max ((normalize a).data.length : ℚ) ((normalize b).data.length : ℚ) = (mN : ℚ) := by
      rw [hmN]
      push_cast
      rfl
    have hm0 : (0 : ℚ) < (mN : ℚ) := by exact_mod_cast hmaxN
    have hsim : stringSimilarity a b =
        (jsRound ((1 - (levenshteinDistance (normalize a) (normalize b) : ℚ) / (mN : ℚ)) * 100) : ℚ) := by
      unfold stringSimilarity
      rw [if_neg h, hcast, if_neg (by exact ne_of_gt hm0)]
    have hd0 : (0 : ℚ) ≤ (levenshteinDistance (normalize a) (normalize b) : ℚ) := by positivity
    have hdm : (levenshteinDistance (normalize a) (normalize b) : ℚ) ≤ (mN : ℚ) := by
      exact_mod_cast hdN
    set x : ℚ := (1 - (levenshteinDistance (normalize a) (normalize b) : ℚ) / (mN : ℚ)) * 100 with hx
    have hx0 : 0 ≤ x := by
      rw [hx]
      have : (levenshteinDistance (normalize a) (normalize b) : ℚ) / (mN : ℚ) ≤ 1 :=
        (div_le_one hm0).mpr hdm
      nlinarith
    have hx100 : x ≤ 100 := by
      rw [hx]
      have : 0 ≤ (levenshteinDistance (normalize a) (normalize b) : ℚ) / (mN : ℚ) :=
        div_nonneg hd0 (le_of_lt hm0)
      nlinarith
    have hr0 : 0 ≤ jsRound x := by
      rw [jsRound]
      exact Int.le_floor.mpr (by push_cast; linarith)
    have hr100 : jsRound x ≤ 100 := by
      rw [jsRound]
      have hlt : ⌊x + 1 / 2⌋ < 101 :=
        Int.floor_lt.mpr (show x + 1 / 2 < ((101 : ℤ) : ℚ) by push_cast; linarith)
      omega
    refine ⟨?_, ?_, ?_, ?_⟩
    · rw [hsim]; exact Rat.den_intCast _
    · rw [hsim]; exact_mod_cast hr0
    · rw [hsim]; exact_mod_cast hr100
    · rw [hsim, if_neg h, hcast]

/-- C9 counterexample: a 20-value column with exactly 17 numeric-parseable
values.  The fraction is exactly 85%, which satisfies the claim's "at least
85%" premise, yet `inferSchemaFromData` classifies the column as `string`
because the source comparison is strict (`> 0.85`). -/
theorem inferSchema_threshold_counterexample :
    (numericParseCount (schemaSample c9Rows "v") : ℚ) /
        (max (schemaSample c9Rows "v").length 1 : ℚ) = 17 / 20 ∧
    (85 : ℚ) / 100 ≤ 17 / 20 ∧
    inferColumnType (schemaSample c9Rows "v") ≠ .number ∧
    (inferSchemaFromData c9Rows).columns =
      [{ name := "v", type := .string, required := false }] :=
  ⟨by with_unfolding_all decide, by norm_num, by with_unfolding_all decide,
    by with_unfolding_all decide⟩

/-- C9 amended: when *strictly more* than 85% of the first-100 sampled
non-empty values of a column parse as numbers after stripping thousands
separators, `inferSchemaFromData` assigns that column the type `number`. -/
theorem inferSchema_numeric_strict (data : List Row) (key : String) (hne : data ≠ [])
    (hk : key ∈ (data.headI).map Prod.fst)
    (hfrac : (numericParseCount (schemaSample data key) : ℚ) /
      (max (schemaSample data key).length 1 : ℚ) > 85 / 100) :
    (∃ c ∈ (inferSchemaFromData data).columns, c.name = key ∧ c.type = .number) ∧
    (∀ c ∈ (inferSchemaFromData data).columns, c.name = key → c.type = .number) := by
  cases data with
  | nil => exact absurd rfl hne
  | cons r rest =>
    have hcols : (inferSchemaFromData (r :: rest)).columns =
        ((r :: rest).headI.map Prod.fst).map (fun key =>
          { name := key, type := inferColumnType (schemaSample (r :: rest) key),
            required := false }) := rfl
    have htype : inferColumnType (schemaSample (r :: rest) key) = .number := by
      unfold inferColumnType
      rw [if_pos hfrac]
    constructor
    · exact ⟨⟨key, inferColumnType (schemaSample (r :: rest) key), false, []⟩,
        by rw [hcols]; exact List.mem_map_of_mem _ hk, rfl, htype⟩
    · intro c hc hname
      rw [hcols] at hc
      obtain ⟨k, hkmem, hck⟩ := List.mem_map.mp hc
      subst hck
      have hkey : k = key := hname
      subst hkey
      exact htype

/-- C9 witness: on a fully numeric column the amended rule fires. -/
theorem inferSchema_numeric_strict_witness :
    (∃ c ∈ (inferSchemaFromData c9AllNumRows).columns, c.name = "x" ∧ c.type = .number) ∧
    (∀ c ∈ (inferSchemaFromData c9AllNumRows).columns, c.name = "x" → c.type = .number) :=
  inferSchema_numeric_strict c9AllNumRows "x" (by decide) (by decide)
    (by with_unfolding_all decide)

theorem tryYYYYMMDD_spec {cs : List Char} {d : JSDate} {f : String}
    (h : tryYYYYMMDD cs = some (d, f)) :
    f = "YYYYMMDD" ∧ 1900 < d.getFullYear ∧ d.getFullYear < 2100 := by
  unfold tryYYYYMMDD at h
  split at h
  · dsimp only at h
    split at h
    · split at h
      · rename_i dt hdt hyr
        simp only [Option.some.injEq, Prod.mk.injEq] at h
        obtain ⟨rfl, rfl⟩ := h
        exact ⟨rfl, of_decide_eq_true hyr⟩
      · exact Option.noConfusion h
    · exact Option.noConfusion h
  · exact Option.noConfusion h

theorem tryISO_spec {cs : List Char} {d : JSDate} {f : String}
    (h : tryISO cs = some (d, f)) :
    f = "YYYY-MM-DD" ∧ 1900 < d.getFullYear ∧ d.getFullYear < 2100 := by
  unfold tryISO at h
  split at h
  · split at h
    · split at h
      · split at h
        · rename_i hyr
          simp only [Option.some.injEq, Prod.mk.injEq] at h
          obtain ⟨rfl, rfl⟩ := h
          exact ⟨rfl, of_decide_eq_true hyr⟩
        · exact Option.noConfusion h
      · exact Option.noConfusion h
    · exact Option.noConfusion h
  · exact Option.noConfusion h

theorem tryNatural_spec {cs : List Char} {d : JSDate} {f : String}
    (h : tryNatural cs = some (d, f)) :
    f = "natural" ∧ 1900 < d.getFullYear ∧ d.getFullYear < 2100 := by
  unfold tryNatural at h
  split at h
  · split at h
    · rename_i hyr
      simp only [Option.some.injEq, Prod.mk.injEq] at h
      obtain ⟨rfl, rfl⟩ := h
      exact ⟨rfl, of_decide_eq_true hyr⟩
    · exact Option.noConfusion h
  · exact Option.noConfusion h

theorem tryYMDSlash_fmt {cs : List Char} {d : JSDate} {f : String}
    (h : tryYMDSlash cs = some (d, f)) : f = "YYYY/MM/DD" := by
  unfold tryYMDSlash at h
  split at h
  · split at h
    · split at h
      · simp only [Option.some.injEq, Prod.mk.injEq] at h
        exact h.2.symm
      · exact Option.noConfusion h
    · exact Option.noConfusion h
  · exact Option.noConfusion h

theorem tryMDY_fmt {cs : List Char} {d : JSDate} {f : String}
    (h : tryMDY cs = some (d, f)) : f = "MM/DD/YYYY" := by
  unfold tryMDY at h
  split at h
  · split at h
    · split at h
      · simp only [Option.some.injEq, Prod.mk.injEq] at h
        exact h.2.symm
      · exact Option.noConfusion h
    · exact Option.noConfusion h
  · exact Option.noConfusion h

theorem tryDMYDash_fmt {cs : List Char} {d : JSDate} {f : String}
    (h : tryDMYDash cs = some (d, f)) : f = "DD-MM-YYYY" := by
  unfold tryDMYDash at h
  split at h
  · split at h
    · split at h
      · simp only [Option.some.injEq, Prod.mk.injEq] at h
        exact h.2.symm
      · exact Option.noConfusion h
    · exact Option.noConfusion h
  · exact Option.noConfusion h

theorem tryDMYSlash_fmt {cs : List Char} {d : JSDate} {f : String}
    (h : tryDMYSlash cs = some (d, f)) : f = "DD/MM/YYYY" := by
  unfold tryDMYSlash at h
  split at h
  · split at h
    · split at h
      · split at h
        · simp only [Option.some.injEq, Prod.mk.injEq] at h
          exact h.2.symm
        · exact Option.noConfusion h
      · exact Option.noConfusion h
    · exact Option.noConfusion h
  · exact Option.noConfusion h

/-- C3 amended: the `(1900, 2100)` year guard governs exactly the
`YYYYMMDD`, ISO-prefixed, and natural-language branches of
`parseMultiFormatDate`; whenever a parse succeeds with one of those format
tags the year is strictly between 1900 and 2100.  (The numeric slash/dash
branches return unguarded dates; see the counterexample.) -/
theorem parse_year_guard_amended (v : JsValue) (d : JSDate) (fmt : String)
    (h : parseMultiFormatDate v = (some d, fmt))
    (hf : fmt = "YYYYMMDD" ∨ fmt = "YYYY-MM-DD" ∨ fmt = "natural") :
    1900 < d.getFullYear ∧ d.getFullYear < 2100 := by
  unfold parseMultiFormatDate at h
  split at h
  · simp at h
  · dsimp only at h
    split at h
    · simp at h
    · split at h
      · rename_i dd ff h1
        simp only [Prod.mk.injEq, Option.some.injEq] at h
        obtain ⟨rfl, rfl⟩ := h
        exact (tryYYYYMMDD_spec h1).2
      · split at h
        · rename_i dd ff h2
          simp only [Prod.mk.injEq, Option.some.injEq] at h
          obtain ⟨rfl, rfl⟩ := h
          exact (tryISO_spec h2).2
        · split at h
          · rename_i dd ff h3
            simp only [Prod.mk.injEq, Option.some.injEq] at h
            obtain ⟨rfl, rfl⟩ := h
            have := tryYMDSlash_fmt h3
            rcases hf with hf | hf | hf <;> simp [this] at hf
          · split at h
            · rename_i dd ff h4
              simp only [Prod.mk.injEq, Option.some.injEq] at h
              obtain ⟨rfl, rfl⟩ := h
              have := tryMDY_fmt h4
              rcases hf with hf | hf | hf <;> simp [this] at hf
            · split at h
              · rename_i dd ff h5
                simp only [Prod.mk.injEq, Option.some.injEq] at h
                obtain ⟨rfl, rfl⟩ := h
                have := tryDMYDash_fmt h5
                rcases hf with hf | hf | hf <;> simp [this] at hf
              · split at h
                · rename_i dd ff h6
                  simp only [Prod.mk.injEq, Option.some.injEq] at h
                  obtain ⟨rfl, rfl⟩ := h
                  have := tryDMYSlash_fmt h6
                  rcases hf with hf | hf | hf <;> simp [this] at hf
                · split at h
                  · rename_i dd ff h7
                    simp only [Prod.mk.injEq, Option.some.injEq] at h
                    obtain ⟨rfl, rfl⟩ := h
                    exact (tryNatural_spec h7).2
                  · simp at h

/-- C3 counterexample: `"1850/01/01"` parses through the `YYYY/MM/DD` branch,
which has no year guard, and yields the year 1850 outside `(1900, 2100)`. -/
theorem parse_year_guard_counterexample :
    (parseMultiFormatDate (.str "1850/01/01")).2 = "YYYY/MM/DD" ∧
    ((parseMultiFormatDate (.str "1850/01/01")).1.map JSDate.getFullYear) = some 1850 ∧
    ¬ (1900 < (1850 : Int) ∧ (1850 : Int) < 2100) := by decide

/-- C3 witness: the guarded `YYYYMMDD` branch at a concrete input. -/
theorem parse_year_guard_amended_witness :
    parseMultiFormatDate (.str "20200115") = (some ⟨1579046400000⟩, "YYYYMMDD") ∧
    (1900 < (JSDate.mk 1579046400000).getFullYear ∧
      (JSDate.mk 1579046400000).getFullYear < 2100) :=
  ⟨by decide, parse_year_guard_amended (.str "20200115") ⟨1579046400000⟩ "YYYYMMDD"
    (by decide) (Or.inl rfl)⟩

/-- C4: on `"13/01/2020"` (first component 13 > 12, second 01 ≤ 12) the
parser does *not* take the documented `DD/MM/YYYY` branch: the earlier
`MM/DD/YYYY` branch constructs `new Date(2020, 12, 1)`, which rolls the
out-of-range month over to January 1, 2021 instead of failing, so the
disambiguation branch is unreachable. -/
theorem ddmm_branch_shadowed :
    parseMultiFormatDate (.str "13/01/2020") = (some ⟨1609459200000⟩, "MM/DD/YYYY") ∧
    (JSDate.mk 1609459200000).getFullYear = 2021 ∧
    (JSDate.mk 1609459200000).getMonth = 0 ∧
    (JSDate.mk 1609459200000).getDate = 1 ∧
    "MM/DD/YYYY" ≠ "DD/MM/YYYY" := by decide

theorem processMapping_target_errors (schema : TargetSchema) (i : Nat) (srcRow : Row)
    (st : RowState) (m : String × String) :
    (processMapping schema i srcRow st m).target =
      setKey m.2 (mappedWrite schema srcRow m) st.target ∧
    (processMapping schema i srcRow st m).errors =
      st.errors ++ ((mappingError schema srcRow m).map
        (fun e => (⟨i, e.column, e.originalValue, e.expectedType, e.reason⟩ : ErrorLogEntry))).toList := by
  obtain ⟨srcCol, tgtCol⟩ := m
  unfold processMapping mappedWrite mappingError
  cases hfind : schema.columns.find? (fun c => c.name = tgtCol) with
  | none => simp [hfind]
  | some schemaCol =>
    simp only [hfind]
    by_cases hmiss : cellMissing (lookupKey srcCol srcRow) = true
    · simp [hmiss]
    · simp only [Bool.not_eq_true] at hmiss
      by_cases hvalid : (enforceType (lookupKey srcCol srcRow) schemaCol.type).valid = true
      · simp [hmiss, hvalid]
      · simp only [Bool.not_eq_true] at hvalid
        simp [hmiss, hvalid]

theorem processRow_spec (schema : TargetSchema) (cm : List (String × String)) (i : Nat)
    (row : Row) : ∀ (st : RowState),
    (cm.foldl (processMapping schema i row) st).target =
      cm.foldl (fun acc m => setKey m.2 (mappedWrite schema row m) acc) st.target ∧
    (cm.foldl (processMapping schema i row) st).errors =
      st.errors ++ (cm.filterMap (mappingError schema row)).map
        (fun e => (⟨i, e.column, e.originalValue, e.expectedType, e.reason⟩ : ErrorLogEntry)) := by
  induction cm with
  | nil => intro st; simp
  | cons m rest ih =>
    intro st
    obtain ⟨ht, he⟩ := processMapping_target_errors schema i row st m
    obtain ⟨iht, ihe⟩ := ih (processMapping schema i row st m)
    constructor
    · simp only [List.foldl_cons]
      rw [iht, ht]
    · simp only [List.foldl_cons, List.filterMap_cons]
      rw [ihe, he]
      cases hm : mappingError schema row m <;> simp [hm]

theorem processRow_target (schema : TargetSchema) (cm : List (String × String)) (i : Nat)
    (row : Row) (cs : List (String × ColStat)) (fr : List (String × Nat)) :
    (processRow schema cm i row cs fr).target = targetRowOf schema cm row :=
  (processRow_spec schema cm i row ⟨[], [], cs, fr⟩).1

theorem processRow_errors (schema : TargetSchema) (cm : List (String × String)) (i : Nat)
    (row : Row) (cs : List (String × ColStat)) (fr : List (String × Nat)) :
    (processRow schema cm i row cs fr).errors =
      (rowFailures schema cm row).map
        (fun e => (⟨i, e.column, e.originalValue, e.expectedType, e.reason⟩ : ErrorLogEntry)) :=
  (processRow_spec schema cm i row ⟨[], [], cs, fr⟩).2

theorem dedupByKey_cons_mem {f : α → String} {seen : List String} {x : α} {xs : List α}
    (h : f x ∈ seen) : dedupByKey f seen (x :: xs) = dedupByKey f seen xs := by
  simp [dedupByKey, h]

theorem dedupByKey_cons_not_mem {f : α → String} {seen : List String} {x : α} {xs : List α}
    (h : f x ∉ seen) : dedupByKey f seen (x :: xs) = x :: dedupByKey f (f x :: seen) xs := by
  simp [dedupByKey, h]

/-- The row-loop state decomposed: kept first occurrences, split into
successes and error rows, with exact duplicate and seen-set accounting. -/
theorem transformGo_spec (schema : TargetSchema) (cm : List (String × String)) :
    ∀ (l : List Row) (i : Nat) (st : TransformState),
    (transformGo schema cm i l st).successRows =
      st.successRows ++ ((dedupByKey hashRow st.seen l).filter
        (fun r => rowFailures schema cm r = [])).map (targetRowOf schema cm) ∧
    (transformGo schema cm i l st).errorRows =
      st.errorRows ++ ((dedupByKey hashRow st.seen l).filter
        (fun r => ¬ rowFailures schema cm r = [])).map
          (fun r => setKey "_error_details"
            (.str (String.intercalate "; " ((rowFailures schema cm r).map (·.reason))))
            (targetRowOf schema cm r)) ∧
    (transformGo schema cm i l st).duplicatesSkipped + (dedupByKey hashRow st.seen l).length =
      st.duplicatesSkipped + l.length ∧
    (∀ h, h ∈ (transformGo schema cm i l st).seen ↔ h ∈ st.seen ∨ h ∈ l.map hashRow) := by
  intro l
  induction l with
  | nil => intro i st; simp [transformGo, dedupByKey]
  | cons r rest ih =>
    intro i st
    simp only [transformGo]
    by_cases hseen : hashRow r ∈ st.seen
    · rw [if_pos hseen, dedupByKey_cons_mem hseen]
      obtain ⟨ih1, ih2, ih3, ih4⟩ :=
        ih (i + 1) { st with duplicatesSkipped := st.duplicatesSkipped + 1 }
      refine ⟨ih1, ih2, ?_, ?_⟩
      · dsimp only at ih3
        simp only [List.length_cons]
        omega
      · intro h
        rw [ih4 h]
        simp only [List.map_cons, List.mem_cons]
        constructor
        · rintro (h1 | h2)
          · exact Or.inl h1
          · exact Or.inr (Or.inr h2)
        · rintro (h1 | h1 | h2)
          · exact Or.inl h1
          · exact Or.inl (h1 ▸ hseen)
          · exact Or.inr h2
    · rw [if_neg hseen, dedupByKey_cons_not_mem hseen]
      by_cases herr : rowFailures schema cm r = []
      · rw [if_neg (by simp [processRow_errors, herr])]
        obtain ⟨ih1, ih2, ih3, ih4⟩ := ih (i + 1)
          { st with seen := hashRow r :: st.seen
                    successRows := st.successRows ++
                      [(processRow schema cm i r st.columnStats st.failureReasons).target]
                    columnStats := (processRow schema cm i r st.columnStats st.failureReasons).columnStats
                    failureReasons := (processRow schema cm i r st.columnStats st.failureReasons).failureReasons }
        refine ⟨?_, ?_, ?_, ?_⟩
        · rw [ih1]
          simp [List.filter_cons, herr, processRow_target]
        · rw [ih2]
          simp [List.filter_cons, herr]
        · simp only at ih3 ⊢
          simp only [List.length_cons]
          omega
        · intro h
          rw [ih4 h]
          simp only [List.map_cons, List.mem_cons]
          tauto
      · rw [if_pos (by simp [processRow_errors, herr])]
        obtain ⟨ih1, ih2, ih3, ih4⟩ := ih (i + 1)
          { st with seen := hashRow r :: st.seen
                    errorRows := st.errorRows ++
                      [setKey "_error_details"
                        (.str (String.intercalate "; "
                          ((processRow schema cm i r st.columnStats st.failureReasons).errors.map (·.reason))))
                        (processRow schema cm i r st.columnStats st.failureReasons).target]
                    errorLog := st.errorLog ++
                      (processRow schema cm i r st.columnStats st.failureReasons).errors
                    columnStats := (processRow schema cm i r st.columnStats st.failureReasons).columnStats
                    failureReasons := (processRow schema cm i r st.columnStats st.failureReasons).failureReasons }
        refine ⟨?_, ?_, ?_, ?_⟩
        · rw [ih1]
          simp [List.filter_cons, herr]
        · rw [ih2]
          simp only [List.filter_cons]
          have hcond : (decide ¬ rowFailures schema cm r = []) = true := by simp [herr]
          rw [hcond]
          simp only [if_true, List.map_cons, processRow_target, processRow_errors,
            List.map_map, List.append_assoc, List.singleton_append]
          rfl
        · simp only at ih3 ⊢
          simp only [List.length_cons]
          omega
        · intro h
          rw [ih4 h]
          simp only [List.map_cons, List.mem_cons]
          tauto

theorem transformGo_append (schema : TargetSchema) (cm : List (String × String)) :
    ∀ (l1 l2 : List Row) (i : Nat) (st : TransformState),
    transformGo schema cm i (l1 ++ l2) st =
      transformGo schema cm (i + l1.length) l2 (transformGo schema cm i l1 st) := by
  intro l1
  induction l1 with
  | nil => intro l2 i st; simp [transformGo]
  | cons x xs ih =>
    intro l2 i st
    simp only [List.cons_append, transformGo, List.append_eq]
    by_cases hseen : hashRow x ∈ st.seen
    · rw [if_pos hseen, if_pos hseen, ih]
      congr 1
      simp only [List.length_cons]
      omega
    · rw [if_neg hseen, if_neg hseen]
      by_cases herr : (processRow schema cm i x st.columnStats st.failureReasons).errors ≠ []
      · rw [if_pos herr, if_pos herr, ih]
        congr 1
        simp only [List.length_cons]
        omega
      · rw [if_neg herr, if_neg herr, ih]
        congr 1
        simp only [List.length_cons]
        omega

theorem transformGo_skip_all (schema : TargetSchema) (cm : List (String × String)) :
    ∀ (l : List Row) (i : Nat) (st : TransformState),
    (∀ r ∈ l, hashRow r ∈ st.seen) →
    transformGo schema cm i l st =
      { st with duplicatesSkipped := st.duplicatesSkipped + l.length } := by
  intro l
  induction l with
  | nil => intro i st _; cases st; rfl
  | cons x xs ih =>
    intro i st h
    simp only [transformGo]
    rw [if_pos (h x (List.mem_cons_self x xs))]
    rw [ih (i + 1) { st with duplicatesSkipped := st.duplicatesSkipped + 1 }
      (fun r hr => h r (List.mem_cons_of_mem x hr))]
    cases st
    simp only [TransformState.mk.injEq, List.length_cons]
    exact ⟨trivial, by omega, trivial, trivial, trivial, trivial, trivial⟩

theorem length_filter_split (l : List Row) (P : Row → Prop) [DecidablePred P] :
    (l.filter (fun r => P r)).length + (l.filter (fun r => ¬ P r)).length = l.length := by
  induction l with
  | nil => rfl
  | cons x xs ih =>
    simp only [decide_not] at ih ⊢
    by_cases h : P x <;> simp [List.filter_cons, h] <;> omega

theorem mappingError_isSome_iff (schema : TargetSchema) (row : Row) (m : String × String) :
    (mappingError schema row m).isSome = true ↔
      ∃ c, schema.columns.find? (fun sc => sc.name = m.2) = some c ∧
        cellMissing (lookupKey m.1 row) = false ∧
        (enforceType (lookupKey m.1 row) c.type).valid = false := by
  obtain ⟨a, b⟩ := m
  unfold mappingError
  cases hfind : schema.columns.find? (fun c => c.name = b) with
  | none => simp [hfind]
  | some c0 =>
    simp only [hfind]
    by_cases hmiss : cellMissing (lookupKey a row) = true
    · simp [hmiss]
    · simp only [Bool.not_eq_true] at hmiss
      by_cases hvalid : (enforceType (lookupKey a row) c0.type).valid = true
      · simp [hmiss, hvalid]
      · simp only [Bool.not_eq_true] at hvalid
        simp [hmiss, hvalid]

theorem rowFailures_ne_nil_iff (schema : TargetSchema) (cm : List (String × String))
    (row : Row) :
    rowFailures schema cm row ≠ [] ↔ ∃ m ∈ cm, (mappingError schema row m).isSome = true := by
  constructor
  · intro h
    by_contra hc
    push_neg at hc
    apply h
    rw [rowFailures, List.filterMap_eq_nil_iff]
    intro m hm
    have := hc m hm
    cases hmm : mappingError schema row m with
    | none => rfl
    | some e => rw [hmm] at this; simp at this
  · rintro ⟨m, hm, hsome⟩ hnil
    rw [rowFailures, List.filterMap_eq_nil_iff] at hnil
    rw [hnil m hm] at hsome
    simp at hsome

/-- C7: full accounting of `transformData`: every non-duplicate row lands in
exactly one of `data` (all mapped cells enforce) or `errorRows` (at least one
mapped cell fails, with an `_error_details` field joining the per-cell
reasons), and `rowsProcessed = |input| − duplicatesSkipped =
rowsSucceeded + rowsFailed`. -/
theorem transformData_row_accounting (data : List Row) (schema : TargetSchema)
    (cm : List (String × String)) :
    (transformData data schema cm).data =
      ((dedupByKey hashRow [] data).filter fun r => rowFailures schema cm r = []).map
        (targetRowOf schema cm) ∧
    (transformData data schema cm).errorRows =
      ((dedupByKey hashRow [] data).filter fun r => ¬ rowFailures schema cm r = []).map
        (fun r => setKey "_error_details"
          (.str (String.intercalate "; " ((rowFailures schema cm r).map (·.reason))))
          (targetRowOf schema cm r)) ∧
    (∀ row ∈ (transformData data schema cm).errorRows,
      ∃ s, lookupKey "_error_details" row = some (.str s)) ∧
    (∀ row, rowFailures schema cm row ≠ [] ↔
      ∃ m ∈ cm, ∃ c, schema.columns.find? (fun sc => sc.name = m.2) = some c ∧
        cellMissing (lookupKey m.1 row) = false ∧
        (enforceType (lookupKey m.1 row) c.type).valid = false) ∧
    (transformData data schema cm).qualitySummary.rowsProcessed =
      data.length - (transformData data schema cm).qualitySummary.duplicatesSkipped ∧
    (transformData data schema cm).qualitySummary.rowsSucceeded +
        (transformData data schema cm).qualitySummary.rowsFailed =
      (transformData data schema cm).qualitySummary.rowsProcessed ∧
    (transformData data schema cm).qualitySummary.rowsSucceeded =
      (transformData data schema cm).data.length ∧
    (transformData data schema cm).qualitySummary.rowsFailed =
      (transformData data schema cm).errorRows.length := by
  obtain ⟨h1, h2, h3, _⟩ := transformGo_spec schema cm data 0
    ⟨[], 0, [], [], [], schema.columns.map (fun c => (c.name, ⟨0, 0, 0⟩)), []⟩
  have hdata : (transformData data schema cm).data =
      (transformGo schema cm 0 data
        ⟨[], 0, [], [], [], schema.columns.map (fun c => (c.name, ⟨0, 0, 0⟩)), []⟩).successRows := rfl
  have herr : (transformData data schema cm).errorRows =
      (transformGo schema cm 0 data
        ⟨[], 0, [], [], [], schema.columns.map (fun c => (c.name, ⟨0, 0, 0⟩)), []⟩).errorRows := rfl
  have hdups : (transformData data schema cm).qualitySummary.duplicatesSkipped =
      (transformGo schema cm 0 data
        ⟨[], 0, [], [], [], schema.columns.map (fun c => (c.name, ⟨0, 0, 0⟩)), []⟩).duplicatesSkipped := rfl
  have hproc : (transformData data schema cm).qualitySummary.rowsProcessed =
      data.length - (transformGo schema cm 0 data
        ⟨[], 0, [], [], [], schema.columns.map (fun c => (c.name, ⟨0, 0, 0⟩)), []⟩).duplicatesSkipped := rfl
  have hsucc : (transformData data schema cm).qualitySummary.rowsSucceeded =
      (transformData data schema cm).data.length := rfl
  have hfail : (transformData data schema cm).qualitySummary.rowsFailed =
      (transformData data schema cm).errorRows.length := rfl
  simp only [List.nil_append] at h1 h2
  simp only at h3
  refine ⟨?_, ?_, ?_, ?_, ?_, ?_, hsucc, hfail⟩
  · rw [hdata, h1]
  · rw [herr, h2]
  · intro row hrow
    rw [herr, h2] at hrow
    obtain ⟨r, _, hr⟩ := List.mem_map.mp hrow
    exact ⟨_, hr ▸ lookupKey_setKey_self _ _ _⟩
  · intro row
    rw [rowFailures_ne_nil_iff]
    constructor
    · rintro ⟨m, hm, hsome⟩
      exact ⟨m, hm, (mappingError_isSome_iff schema row m).mp hsome⟩
    · rintro ⟨m, hm, hex⟩
      exact ⟨m, hm, (mappingError_isSome_iff schema row m).mpr hex⟩
  · rw [hproc, hdups]
  · rw [hsucc, hfail, hproc, hdata, herr, h1, h2]
    have hsplit := length_filter_split (dedupByKey hashRow [] data)
      (fun r => rowFailures schema cm r = [])
    simp only [List.length_map]
    omega

/-- C6: hash-based idempotency of `transformData`: re-submitting the same row
list yields identical `data` and `errorRows` (every second-copy row is counted
as a skipped duplicate), and the specification's concrete instance yields
`data.length = 2` with `duplicatesSkipped = 1`. -/
theorem transform_idempotent_on_duplicates :
    (∀ (rows : List Row) (schema : TargetSchema) (cm : List (String × String)),
      (transformData (rows ++ rows) schema cm).data = (transformData rows schema cm).data ∧
      (transformData (rows ++ rows) schema cm).errorRows =
        (transformData rows schema cm).errorRows ∧
      (transformData (rows ++ rows) schema cm).qualitySummary.duplicatesSkipped =
        (transformData rows schema cm).qualitySummary.duplicatesSkipped + rows.length) ∧
    ((transformData aliceRows idNameSchema idNameMappings).data.length = 2 ∧
      (transformData aliceRows idNameSchema idNameMappings).qualitySummary.duplicatesSkipped = 1) := by
  constructor
  · intro rows schema cm
    have hseenmem := (transformGo_spec schema cm rows 0
      ⟨[], 0, [], [], [], schema.columns.map (fun c => (c.name, ⟨0, 0, 0⟩)), []⟩).2.2.2
    have happ := transformGo_append schema cm rows rows 0
      ⟨[], 0, [], [], [], schema.columns.map (fun c => (c.name, ⟨0, 0, 0⟩)), []⟩
    have hall : ∀ r ∈ rows, hashRow r ∈ (transformGo schema cm 0 rows
        ⟨[], 0, [], [], [], schema.columns.map (fun c => (c.name, ⟨0, 0, 0⟩)), []⟩).seen :=
      fun r hr => (hseenmem _).mpr (Or.inr (List.mem_map_of_mem _ hr))
    have hskip := transformGo_skip_all schema cm rows (0 + rows.length) _ hall
    have hgo : transformGo schema cm 0 (rows ++ rows)
        ⟨[], 0, [], [], [], schema.columns.map (fun c => (c.name, ⟨0, 0, 0⟩)), []⟩ =
        { (transformGo schema cm 0 rows
            ⟨[], 0, [], [], [], schema.columns.map (fun c => (c.name, ⟨0, 0, 0⟩)), []⟩) with
          duplicatesSkipped := (transformGo schema cm 0 rows
            ⟨[], 0, [], [], [], schema.columns.map (fun c => (c.name, ⟨0, 0, 0⟩)), []⟩).duplicatesSkipped
              + rows.length } := by
      rw [happ, hskip]
    refine ⟨?_, ?_, ?_⟩
    · show (transformGo schema cm 0 (rows ++ rows)
        ⟨[], 0, [], [], [], schema.columns.map (fun c => (c.name, ⟨0, 0, 0⟩)), []⟩).successRows = _
      rw [hgo]; rfl
    · show (transformGo schema cm 0 (rows ++ rows)
        ⟨[], 0, [], [], [], schema.columns.map (fun c => (c.name, ⟨0, 0, 0⟩)), []⟩).errorRows = _
      rw [hgo]; rfl
    · show (transformGo schema cm 0 (rows ++ rows)
        ⟨[], 0, [], [], [], schema.columns.map (fun c => (c.name, ⟨0, 0, 0⟩)), []⟩).duplicatesSkipped = _
      rw [hgo]; rfl
  · exact ⟨by with_unfolding_all decide, by with_unfolding_all decide⟩

theorem map_lookup_fill_ne {col name : String} (hne : col ≠ name) (fv : JsValue)
    (X : List Row) :
    (X.map fun row => if isEmptyCell (lookupKey col row) then setKey col fv row else row).map
      (lookupKey name) = X.map (lookupKey name) := by
  rw [List.map_map]
  apply List.map_congr_left
  intro r _
  simp only [Function.comp_apply]
  by_cases h : isEmptyCell (lookupKey col r) = true
  · rw [if_pos h]; exact lookupKey_setKey_ne hne fv r
  · rw [if_neg h]

theorem map_lookup_fill_self (col : String) (fv : JsValue) (X : List Row) :
    (X.map fun row => if isEmptyCell (lookupKey col row) then setKey col fv row else row).map
      (lookupKey col) =
    X.map fun r => if isEmptyCell (lookupKey col r) then some fv else lookupKey col r := by
  rw [List.map_map]
  apply List.map_congr_left
  intro r _
  simp only [Function.comp_apply]
  by_cases h : isEmptyCell (lookupKey col r) = true
  · rw [if_pos h, if_pos h]; exact lookupKey_setKey_self col fv r
  · rw [if_neg h, if_neg h]

theorem map_cell_fill (col : String) (fv : JsValue) (X : List Row) :
    (X.map fun r => if isEmptyCell (lookupKey col r) then some fv else lookupKey col r) =
    (X.map (lookupKey col)).map fun c => if isEmptyCell c then some fv else c := by
  rw [List.map_map]
  rfl

theorem map_lookup_enum_fill {col name : String} (hne : col ≠ name) (g : Nat → ℚ) :
    ∀ (X : List Row) (i : Nat),
    (((List.enumFrom i X).map fun ir =>
        if isEmptyCell (lookupKey col ir.2) then setKey col (.num (g ir.1)) ir.2 else ir.2).map
      (lookupKey name)) = X.map (lookupKey name) := by
  intro X
  induction X with
  | nil => intro i; rfl
  | cons x xs ih =>
    intro i
    simp only [List.enumFrom_cons, List.map_cons]
    rw [ih (i + 1)]
    congr 1
    by_cases h : isEmptyCell (lookupKey col x) = true
    · rw [if_pos h]; exact lookupKey_setKey_ne hne _ x
    · rw [if_neg h]

theorem numericFillValue_skew_mean (cfg : CleaningConfig) (nv : List ℚ)
    (hmean : cfg.numericImputation = .mean) :
    numericFillValue cfg true nv = some (.num (medianQ nv)) := by
  unfold numericFillValue
  rw [if_pos ⟨rfl, hmean⟩]

theorem handleMissingForProfile_map_lookup (cfg : CleaningConfig) (q : ColumnProfile)
    (name : String) (hne : q.name ≠ name) (st : List Row × List String × Nat) :
    (handleMissingForProfile cfg q st).1.map (lookupKey name) = st.1.map (lookupKey name) := by
  unfold handleMissingForProfile
  by_cases h0 : q.nullCount = 0
  · rw [if_pos h0]
  · rw [if_neg h0]
    dsimp only
    by_cases h1 : q.dataType = .numeric
    · rw [if_pos h1]
      by_cases h2 : q.isTimeSeries ∧ cfg.enableTimeSeriesInterpolation
      · rw [if_pos h2]
        dsimp only
        rw [List.enum_eq_enumFrom]
        exact map_lookup_enum_fill hne
          (fun i => jsRound2 ((interpolateNumeric ((colValues st.1 q.name).map fun c =>
            if isEmptyCell c then none else jsNumberOfCell c)).getD i 0)) st.1 0
      · rw [if_neg h2]
        split
        · rename_i fv hfv
          by_cases hzb : cfg.enforceZeroBlank = true
          · rw [if_pos hzb]
            simp only [applyFillCol]
            exact map_lookup_fill_ne hne fv st.1
          · rw [if_neg hzb]
        · rfl
    · rw [if_neg h1]
      by_cases h3 : q.dataType = .categorical ∨ q.dataType = .text
      · rw [if_pos h3]
        by_cases hzb : cfg.enforceZeroBlank = true
        · rw [if_pos hzb]
          simp only [applyFillCol]
          exact map_lookup_fill_ne hne _ st.1
        · rw [if_neg hzb]
      · rw [if_neg h3]
        by_cases h4 : q.dataType = .boolean
        · rw [if_pos h4]
          by_cases hzb : cfg.enforceZeroBlank = true
          · rw [if_pos hzb]
            simp only [applyFillCol]
            exact map_lookup_fill_ne hne _ st.1
          · rw [if_neg hzb]
        · rw [if_neg h4]

theorem handleMissingFill_foldl_other (cfg : CleaningConfig) (name : String) :
    ∀ (l : List ColumnProfile) (st : List Row × List String × Nat),
    (∀ q ∈ l, q.name ≠ name) →
    (l.foldl (fun st p => handleMissingForProfile cfg p st) st).1.map (lookupKey name) =
      st.1.map (lookupKey name) := by
  intro l
  induction l with
  | nil => intro st _; rfl
  | cons q qs ih =>
    intro st h
    simp only [List.foldl_cons]
    rw [ih _ (fun r hr => h r (List.mem_cons_of_mem q hr))]
    exact handleMissingForProfile_map_lookup cfg q name (h q (List.mem_cons_self q qs)) st

theorem handleMissingForProfile_skew (cfg : CleaningConfig) (pf : ColumnProfile)
    (st : List Row × List String × Nat)
    (hnum : pf.dataType = .numeric)
    (hnull : ¬ pf.nullCount = 0)
    (hts : ¬ (pf.isTimeSeries ∧ cfg.enableTimeSeriesInterpolation))
    (hskew : (pf.stats.map (·.isSkewed)).getD false = true)
    (hmean : cfg.numericImputation = .mean)
    (hzb : cfg.enforceZeroBlank = true) :
    (handleMissingForProfile cfg pf st).1 =
      st.1.map fun row =>
        if isEmptyCell (lookupKey pf.name row) then
          setKey pf.name (.num (medianQ ((((((colValues st.1 pf.name).filter
            fun c => ¬ isEmptyCell c).filterMap id).map jsNumber).filterMap id)))) row
        else row := by
  unfold handleMissingForProfile
  rw [if_neg hnull]
  dsimp only
  rw [if_pos hnum, if_neg hts]
  rw [hskew, numericFillValue_skew_mean cfg _ hmean]
  dsimp only
  rw [if_pos hzb]
  simp only [applyFillCol]

/-- C8: skew override of mean imputation.  For every profile list, whenever a
profiled column is numeric, has missing cells, is not interpolated as a
time-series, and is flagged as skewed, the step-9 fill under
`numericImputation = mean` with zero-blank enforcement writes the column
median of the non-missing numeric values into every empty cell (never the
mean); and on the concrete skewed column [1,1,1,1,10,null] the full
`cleanDataAdvanced` pipeline fills the blank with the median 1, while the
rounded mean is 14/5 ≠ 1. -/
theorem skew_override :
    (∀ (profiles : List ColumnProfile) (cfg : CleaningConfig) (rows : List Row)
      (pf : ColumnProfile),
      pf ∈ profiles →
      (profiles.map (·.name)).Nodup →
      pf.dataType = .numeric →
      ¬ pf.nullCount = 0 →
      ¬ (pf.isTimeSeries ∧ cfg.enableTimeSeriesInterpolation) →
      (pf.stats.map (·.isSkewed)).getD false = true →
      cfg.numericImputation = .mean →
      cfg.enforceZeroBlank = true →
      (handleMissingFill profiles cfg rows).1.map (lookupKey pf.name) =
        rows.map fun r =>
          if isEmptyCell (lookupKey pf.name r) then
            some (JsValue.num (medianQ ((((((colValues rows pf.name).filter
              fun c => ¬ isEmptyCell c).filterMap id).map jsNumber).filterMap id))))
          else lookupKey pf.name r) ∧
    ((cleanDataAdvanced c8Rows c8Cfg 0).data.map (lookupKey "val") =
      [some (.num 1), some (.num 1), some (.num 1), some (.num 1),
       some (.num 10), some (.num 1)] ∧
      medianQ [1, 1, 1, 1, 10] = 1 ∧
      jsRound2 ((1 + 1 + 1 + 1 + 10 : ℚ) / 5) = 14 / 5 ∧ (14 : ℚ) / 5 ≠ 1) := by
  constructor
  · intro profiles cfg rows pf hmem hnodup hnum hnull hts hskew hmean hzb
    obtain ⟨s, t, rfl⟩ := List.append_of_mem hmem
    rw [List.map_append, List.map_cons] at hnodup
    have hnd := List.nodup_append.mp hnodup
    have hs : ∀ q ∈ s, q.name ≠ pf.name := by
      intro q hq heq
      exact hnd.2.2 (heq ▸ List.mem_map_of_mem _ hq) (List.mem_cons_self _ _)
    have ht : ∀ q ∈ t, q.name ≠ pf.name := by
      intro q hq heq
      have hnd2 := List.nodup_cons.mp hnd.2.1
      exact hnd2.1 (heq ▸ List.mem_map_of_mem _ hq)
    unfold handleMissingFill
    rw [List.foldl_append, List.foldl_cons]
    rw [handleMissingFill_foldl_other cfg pf.name t _ ht]
    have hpre := handleMissingFill_foldl_other cfg pf.name s (rows, [], 0) hs
    have hcv : colValues (s.foldl (fun st p => handleMissingForProfile cfg p st)
        (rows, [], 0)).1 pf.name = colValues rows pf.name := hpre
    rw [handleMissingForProfile_skew cfg pf _ hnum hnull hts hskew hmean hzb]
    rw [hcv, map_lookup_fill_self, map_cell_fill]
    show ((s.foldl (fun st p => handleMissingForProfile cfg p st)
      (rows, [], 0)).1.map (lookupKey pf.name)).map _ = _
    rw [hpre, ← map_cell_fill]
  · exact ⟨by with_unfolding_all decide, by with_unfolding_all decide,
      by with_unfolding_all decide, by with_unfolding_all decide⟩

theorem lookupAssoc_mem_values {κ β : Type} [DecidableEq κ] (k : κ) (c : β) :
    ∀ l : List (κ × β), lookupAssoc k l = some c → c ∈ l.map (·.2) := by
  intro l
  induction l with
  | nil => intro h; simp [lookupAssoc] at h
  | cons kv rest ih =>
    intro h
    rw [lookupAssoc] at h
    by_cases hk : kv.1 = k
    · rw [if_pos hk] at h
      simp only [Option.some.injEq] at h
      subst h
      exact List.mem_map_of_mem _ (List.mem_cons_self kv rest)
    · rw [if_neg hk] at h
      exact List.mem_cons_of_mem _ (ih h)

theorem gender_canonical_mem (s c : String)
    (h : lookupAssoc s genderExplicitMappings = some c) : c = "Male" ∨ c = "Female" := by
  have hm := lookupAssoc_mem_values s c genderExplicitMappings h
  simp only [genderExplicitMappings, List.map_cons, List.map_nil, List.mem_cons,
    List.not_mem_nil, or_false] at hm
  tauto

theorem genderOk_not_blank {v : JsValue} (h : genderOk v) : isEmptyVal v = false := by
  rcases h with h | h | h
  · subst h; decide
  all_goals
    cases v with
    | null => exact absurd h (by decide)
    | bool b => rfl
    | num q => rfl
    | str s =>
      simp only [isEmptyVal, isEmptyCell, jsToString] at h ⊢
      rw [h]
      decide

theorem genderInv_iff_map (g : String) (rows : List Row) :
    GenderInv g rows ↔ ∀ c ∈ rows.map (lookupKey g), ∃ v, c = some v ∧ genderOk v := by
  unfold GenderInv
  constructor
  · rintro h c hc
    obtain ⟨r, hr, rfl⟩ := List.mem_map.mp hc
    exact h r hr
  · intro h r hr
    exact h _ (List.mem_map_of_mem _ hr)

theorem GenderInv_of_map_eq {g : String} {rows rows' : List Row}
    (hmap : rows'.map (lookupKey g) = rows.map (lookupKey g)) (h : GenderInv g rows) :
    GenderInv g rows' := by
  rw [genderInv_iff_map] at h ⊢
  rw [hmap]
  exact h

theorem GenderInv_filter (g : String) (p : Row → Bool) {rows : List Row}
    (h : GenderInv g rows) : GenderInv g (rows.filter p) :=
  fun r hr => h r (List.mem_of_mem_filter hr)

theorem genderNormalizeRow_ok (g : String) (r : Row) :
    ∃ v, lookupKey g ((genderNormalizeRow g r).1) = some v ∧ genderOk v := by
  unfold genderNormalizeRow
  dsimp only
  cases hv : lookupKey g r with
  | none =>
    rw [if_pos (by decide : isEmptyCell none = true)]
    exact ⟨.str "Unknown", lookupKey_setKey_self g _ r, Or.inl rfl⟩
  | some v =>
    by_cases hemp : isEmptyCell (some v) = true
    · rw [if_pos hemp]
      exact ⟨.str "Unknown", lookupKey_setKey_self g _ r, Or.inl rfl⟩
    · rw [if_neg hemp]
      dsimp only
      by_cases hf : jsFalsy v = true
      · rw [if_pos hf]
        rw [show lookupAssoc (jsTrim (jsToString (JsValue.str ""))) genderExplicitMappings
          = none from by decide]
        exact ⟨.str "Unknown", lookupKey_setKey_self g _ r, Or.inl rfl⟩
      · rw [if_neg hf]
        cases hla : lookupAssoc (jsTrim (jsToString v)) genderExplicitMappings with
        | none =>
          exact ⟨.str "Unknown", lookupKey_setKey_self g _ r, Or.inl rfl⟩
        | some c =>
          dsimp only
          rcases gender_canonical_mem _ c hla with hc | hc
          all_goals by_cases hsc : jsTrim (jsToString v) ≠ c
          · rw [if_pos hsc]
            exact ⟨.str c, lookupKey_setKey_self g _ r, by subst hc; exact Or.inr (Or.inl (by decide))⟩
          · rw [if_neg hsc]
            push_neg at hsc
            exact ⟨v, hv, Or.inr (Or.inl (hsc.trans hc))⟩
          · rw [if_pos hsc]
            exact ⟨.str c, lookupKey_setKey_self g _ r,
              by subst hc; exact Or.inr (Or.inr (by decide))⟩
          · rw [if_neg hsc]
            push_neg at hsc
            exact ⟨v, hv, Or.inr (Or.inr (hsc.trans hc))⟩

theorem lookupKey_genderNormalizeRow_ne {q g : String} (hne : q ≠ g) (r : Row) :
    lookupKey g ((genderNormalizeRow q r).1) = lookupKey g r := by
  unfold genderNormalizeRow
  dsimp only
  split
  · exact lookupKey_setKey_ne hne _ r
  · split
    · split
      · exact lookupKey_setKey_ne hne _ r
      · rfl
    · exact lookupKey_setKey_ne hne _ r

theorem lookupKey_standardNormalizeRow_ne {q g : String} (hne : q ≠ g)
    (mappings : List (String × String)) (r : Row) :
    lookupKey g ((standardNormalizeRow q mappings r).1) = lookupKey g r := by
  unfold standardNormalizeRow
  dsimp only
  split
  · split
    · exact lookupKey_setKey_ne hne _ r
    · rfl
  · rfl

theorem normalizeCatIter_map_other (g : String) (q : ColumnProfile) (hne : q.name ≠ g)
    (st : List Row × List String) :
    (normalizeCatIter st q).1.map (lookupKey g) = st.1.map (lookupKey g) := by
  unfold normalizeCatIter
  split
  · dsimp only
    split
    · rw [List.map_map]
      apply List.map_congr_left
      intro r _
      exact lookupKey_genderNormalizeRow_ne hne r
    · rw [List.map_map]
      apply List.map_congr_left
      intro r _
      exact lookupKey_standardNormalizeRow_ne hne _ r
  · rfl

theorem normalizeCat_foldl_other (g : String) :
    ∀ (l : List ColumnProfile) (st : List Row × List String),
    (∀ q ∈ l, q.name ≠ g) →
    (l.foldl normalizeCatIter st).1.map (lookupKey g) = st.1.map (lookupKey g) := by
  intro l
  induction l with
  | nil => intro st _; rfl
  | cons q qs ih =>
    intro st h
    rw [List.foldl_cons, ih _ (fun r hr => h r (List.mem_cons_of_mem q hr))]
    exact normalizeCatIter_map_other g q (h q (List.mem_cons_self q qs)) st

theorem normalizeCatIter_gender (pf : ColumnProfile) (st : List Row × List String)
    (hdt : pf.dataType = .categorical ∨ pf.dataType = .text ∨ pf.dataType = .boolean)
    (hci : pf.categoricalInfo.isSome = true)
    (hg : protectedColumnPatterns.any (fun pat => strContains (jsToLower pf.name) pat) = true) :
    GenderInv pf.name (normalizeCatIter st pf).1 := by
  unfold normalizeCatIter
  rw [if_pos ⟨hdt, hci⟩]
  dsimp only
  rw [if_pos hg]
  intro row hrow
  simp only [List.mem_map] at hrow
  obtain ⟨r, _, rfl⟩ := hrow
  exact genderNormalizeRow_ok pf.name r

theorem normalizeCategoricalStep_gender (profiles : List ColumnProfile) (pf : ColumnProfile)
    (rows : List Row)
    (hmem : pf ∈ profiles)
    (hnodup : (profiles.map (·.name)).Nodup)
    (hdt : pf.dataType = .categorical ∨ pf.dataType = .text ∨ pf.dataType = .boolean)
    (hci : pf.categoricalInfo.isSome = true)
    (hg : protectedColumnPatterns.any (fun pat => strContains (jsToLower pf.name) pat) = true) :
    GenderInv pf.name (normalizeCategoricalStep profiles rows).1 := by
  obtain ⟨s, t, rfl⟩ := List.append_of_mem hmem
  rw [List.map_append, List.map_cons] at hnodup
  have hnd := List.nodup_append.mp hnodup
  have ht : ∀ q ∈ t, q.name ≠ pf.name := by
    intro q hq heq
    have hnd2 := List.nodup_cons.mp hnd.2.1
    exact hnd2.1 (heq ▸ List.mem_map_of_mem _ hq)
  unfold normalizeCategoricalStep
  rw [List.foldl_append, List.foldl_cons]
  exact GenderInv_of_map_eq (normalizeCat_foldl_other pf.name t _ ht)
    (normalizeCatIter_gender pf _ hdt hci hg)

theorem lookupKey_capOutlierRow_ne {q g : String} (hne : q ≠ g) (lb ub : ℚ) (r : Row) :
    lookupKey g ((capOutlierRow q lb ub r).1) = lookupKey g r := by
  unfold capOutlierRow
  split
  · split
    · exact lookupKey_setKey_ne hne _ r
    · split
      · exact lookupKey_setKey_ne hne _ r
      · rfl
  · rfl

theorem lookupKey_flagOutlierRow_ne {q g : String} (hne : q ++ "_outlier" ≠ g)
    (lb ub : ℚ) (r : Row) :
    lookupKey g ((flagOutlierRow q lb ub r).1) = lookupKey g r := by
  unfold flagOutlierRow
  exact lookupKey_setKey_ne hne _ r

theorem outlierIter_gender (cfg : CleaningConfig) (g : String) (q : ColumnProfile)
    (hnum : q.dataType = .numeric → q.name ≠ g)
    (hflag : q.name ++ "_outlier" ≠ g)
    (st : List Row × List String)
    (hinv : GenderInv g st.1) :
    GenderInv g (outlierIter cfg st q).1 := by
  unfold outlierIter
  split
  · rename_i stats hstats
    by_cases hc : q.dataType = .numeric ∧ stats.outlierCount > 0
    · rw [if_pos hc]
      have hne := hnum hc.1
      dsimp only
      split
      · refine GenderInv_of_map_eq ?_ hinv
        rw [List.map_map]
        apply List.map_congr_left
        intro r _
        exact lookupKey_capOutlierRow_ne hne _ _ r
      · exact GenderInv_filter g _ hinv
      · refine GenderInv_of_map_eq ?_ hinv
        rw [List.map_map]
        apply List.map_congr_left
        intro r _
        exact lookupKey_flagOutlierRow_ne hflag _ _ r
      · exact hinv
    · rw [if_neg hc]
      exact hinv
  · exact hinv

theorem handleOutliersStep_gender (cfg : CleaningConfig) (g : String) :
    ∀ (l : List ColumnProfile) (st : List Row × List String),
    (∀ q ∈ l, (q.dataType = .numeric → q.name ≠ g) ∧ q.name ++ "_outlier" ≠ g) →
    GenderInv g st.1 → GenderInv g (l.foldl (outlierIter cfg) st).1 := by
  intro l
  induction l with
  | nil => intro st _ h; exact h
  | cons q qs ih =>
    intro st h hinv
    rw [List.foldl_cons]
    exact ih _ (fun r hr => h r (List.mem_cons_of_mem q hr))
      (outlierIter_gender cfg g q (h q (List.mem_cons_self q qs)).1
        (h q (List.mem_cons_self q qs)).2 st hinv)

theorem map_fill_id (col : String) (fv : JsValue) (X : List Row)
    (h : ∀ r ∈ X, isEmptyCell (lookupKey col r) = false) :
    X.map (fun row => if isEmptyCell (lookupKey col row) then setKey col fv row else row) = X := by
  have heach : ∀ r ∈ X,
      (if isEmptyCell (lookupKey col r) then setKey col fv r else r) = id r := by
    intro r hr
    rw [if_neg (by simp [h r hr])]
    rfl
  rw [List.map_congr_left heach, List.map_id]

theorem handleMissingForProfile_nonnumeric (cfg : CleaningConfig) (q : ColumnProfile)
    (hq : ¬ q.dataType = .numeric) (st : List Row × List String × Nat)
    (hblank : ∀ r ∈ st.1, isEmptyCell (lookupKey q.name r) = false) :
    (handleMissingForProfile cfg q st).1 = st.1 := by
  unfold handleMissingForProfile
  by_cases h0 : q.nullCount = 0
  · rw [if_pos h0]
  · rw [if_neg h0]
    dsimp only
    rw [if_neg hq]
    by_cases h3 : q.dataType = .categorical ∨ q.dataType = .text
    · rw [if_pos h3]
      by_cases hzb : cfg.enforceZeroBlank = true
      · rw [if_pos hzb]
        simp only [applyFillCol]
        exact map_fill_id q.name _ st.1 hblank
      · rw [if_neg hzb]
    · rw [if_neg h3]
      by_cases h4 : q.dataType = .boolean
      · rw [if_pos h4]
        by_cases hzb : cfg.enforceZeroBlank = true
        · rw [if_pos hzb]
          simp only [applyFillCol]
          exact map_fill_id q.name _ st.1 hblank
        · rw [if_neg hzb]
      · rw [if_neg h4]

theorem handleMissingFill_gender (cfg : CleaningConfig) (g : String) :
    ∀ (l : List ColumnProfile) (st : List Row × List String × Nat),
    (∀ q ∈ l, q.name = g → ¬ q.dataType = .numeric) →
    GenderInv g st.1 →
    GenderInv g (l.foldl (fun st p => handleMissingForProfile cfg p st) st).1 := by
  intro l
  induction l with
  | nil => intro st _ h; exact h
  | cons q qs ih =>
    intro st h hinv
    rw [List.foldl_cons]
    refine ih _ (fun r hr => h r (List.mem_cons_of_mem q hr)) ?_
    by_cases hqg : q.name = g
    · have hblank : ∀ r ∈ st.1, isEmptyCell (lookupKey q.name r) = false := by
        intro r hr
        obtain ⟨v, hv, hok⟩ := hinv r hr
        rw [hqg, hv]
        exact genderOk_not_blank hok
      rw [handleMissingForProfile_nonnumeric cfg q
        (h q (List.mem_cons_self q qs) hqg) st hblank]
      exact hinv
    · exact GenderInv_of_map_eq
        (handleMissingForProfile_map_lookup cfg q g hqg st) hinv

theorem removeMissingRows_gender (cfg : CleaningConfig) (g : String) (rows : List Row)
    (hinv : GenderInv g rows) : GenderInv g (removeMissingRows cfg rows).1 := by
  unfold removeMissingRows
  split
  · exact GenderInv_filter g _ hinv
  · exact hinv

theorem lookupKey_writeDateParts_ne {base g : String}
    (h1 : base ++ "_year" ≠ g) (h2 : base ++ "_quarter" ≠ g) (h3 : base ++ "_month" ≠ g)
    (h4 : base ++ "_month_name" ≠ g) (h5 : base ++ "_day_of_week" ≠ g)
    (y : Int) (qtr : String) (m : Int) (mn dw : String) (row : Row) :
    lookupKey g (writeDateParts base y qtr m mn dw row) = lookupKey g row := by
  unfold writeDateParts
  rw [lookupKey_setKey_ne h5, lookupKey_setKey_ne h4, lookupKey_setKey_ne h3,
    lookupKey_setKey_ne h2, lookupKey_setKey_ne h1]

theorem derivedForProfile_map_lookup (nowMs : Int) (q : ColumnProfile) (g : String)
    (h1 : q.name ++ "_year" ≠ g) (h2 : q.name ++ "_quarter" ≠ g)
    (h3 : q.name ++ "_month" ≠ g) (h4 : q.name ++ "_month_name" ≠ g)
    (h5 : q.name ++ "_day_of_week" ≠ g) (rows : List Row) :
    (derivedForProfile nowMs q rows).map (lookupKey g) = rows.map (lookupKey g) := by
  unfold derivedForProfile
  rw [List.map_map]
  apply List.map_congr_left
  intro r _
  simp only [Function.comp_apply]
  split
  · exact lookupKey_writeDateParts_ne h1 h2 h3 h4 h5 _ _ _ _ _ r
  · exact lookupKey_writeDateParts_ne h1 h2 h3 h4 h5 _ _ _ _ _ r

theorem createDatePartsStep_gender (nowMs : Int) (g : String) :
    ∀ (l : List ColumnProfile) (st : List Row × List String),
    (∀ q ∈ l, q.name ++ "_year" ≠ g ∧ q.name ++ "_quarter" ≠ g ∧ q.name ++ "_month" ≠ g ∧
      q.name ++ "_month_name" ≠ g ∧ q.name ++ "_day_of_week" ≠ g) →
    GenderInv g st.1 → GenderInv g (l.foldl (datePartsIter nowMs) st).1 := by
  intro l
  induction l with
  | nil => intro st _ h; exact h
  | cons q qs ih =>
    intro st h hinv
    rw [List.foldl_cons]
    refine ih _ (fun r hr => h r (List.mem_cons_of_mem q hr)) ?_
    obtain ⟨h1, h2, h3, h4, h5⟩ := h q (List.mem_cons_self q qs)
    exact GenderInv_of_map_eq (derivedForProfile_map_lookup nowMs q g h1 h2 h3 h4 h5 st.1) hinv

theorem lookupKey_absRow_ne {q g : String} (hne : q ≠ g) (r : Row) :
    lookupKey g (match jsNumberOfCell (lookupKey q r) with
      | some v => if v < 0 then setKey q (.num |v|) r else r
      | none => r) = lookupKey g r := by
  split
  · split
    · exact lookupKey_setKey_ne hne _ r
    · rfl
  · rfl

theorem lookupKey_pctRow_ne {q g : String} (hne : q ≠ g) (r : Row) :
    lookupKey g (match jsNumberOfCell (lookupKey q r) with
      | some v => if v > 100 then setKey q (.num 100) r else r
      | none => r) = lookupKey g r := by
  split
  · split
    · exact lookupKey_setKey_ne hne _ r
    · rfl
  · rfl

theorem lookupKey_ageRow_ne {q g : String} (hne : q ≠ g) (r : Row) :
    lookupKey g (match jsNumberOfCell (lookupKey q r) with
      | some v =>
        if v > 120 then setKey q (.num 120) r
        else if v < 0 then setKey q (.num 0) r
        else r
      | none => r) = lookupKey g r := by
  split
  · split
    · exact lookupKey_setKey_ne hne _ r
    · split
      · exact lookupKey_setKey_ne hne _ r
      · rfl
  · rfl

theorem validateRangesForProfile_map (g : String) (q : ColumnProfile)
    (h : q.dataType = .numeric → q.name ≠ g) (st : List Row × List String) :
    (validateRangesForProfile q st).1.map (lookupKey g) = st.1.map (lookupKey g) := by
  unfold validateRangesForProfile
  by_cases hq : q.dataType = .numeric
  · rw [if_pos hq]
    have hne := h hq
    dsimp only
    by_cases c3 : strContains (jsToLower q.name) "age" = true
    all_goals by_cases c2 : (strContains (jsToLower q.name) "percent" = true ∨
      strContains (jsToLower q.name) "pct" = true ∨ strContains (jsToLower q.name) "rate" = true)
    all_goals by_cases c1 :
      (rangePositivePatterns.any fun pat => strContains (jsToLower q.name) pat) = true
    all_goals first
      | rw [if_pos c3, if_pos c2, if_pos c1] | rw [if_pos c3, if_pos c2, if_neg c1]
      | rw [if_pos c3, if_neg c2, if_pos c1] | rw [if_pos c3, if_neg c2, if_neg c1]
      | rw [if_neg c3, if_pos c2, if_pos c1] | rw [if_neg c3, if_pos c2, if_neg c1]
      | rw [if_neg c3, if_neg c2, if_pos c1] | rw [if_neg c3, if_neg c2, if_neg c1]
    all_goals dsimp only
    all_goals simp only [List.map_map]
    all_goals try rfl
    all_goals apply List.map_congr_left
    all_goals intro r _
    all_goals simp only [Function.comp_apply]
    all_goals first
      | rw [lookupKey_ageRow_ne hne, lookupKey_pctRow_ne hne, lookupKey_absRow_ne hne]
      | rw [lookupKey_ageRow_ne hne, lookupKey_pctRow_ne hne]
      | rw [lookupKey_ageRow_ne hne, lookupKey_absRow_ne hne]
      | rw [lookupKey_pctRow_ne hne, lookupKey_absRow_ne hne]
      | rw [lookupKey_ageRow_ne hne]
      | rw [lookupKey_pctRow_ne hne]
      | rw [lookupKey_absRow_ne hne]
  · rw [if_neg hq]

theorem validateRangesStep_gender (g : String) :
    ∀ (l : List ColumnProfile) (st : List Row × List String),
    (∀ q ∈ l, q.dataType = .numeric → q.name ≠ g) →
    GenderInv g st.1 →
    GenderInv g (l.foldl (fun st p => validateRangesForProfile p st) st).1 := by
  intro l
  induction l with
  | nil => intro st _ h; exact h
  | cons q qs ih =>
    intro st h hinv
    rw [List.foldl_cons]
    exact ih _ (fun r hr => h r (List.mem_cons_of_mem q hr))
      (GenderInv_of_map_eq (validateRangesForProfile_map g q (h q (List.mem_cons_self q qs)) st)
        hinv)

theorem lookupKey_zeroBlankRow (profiles : List ColumnProfile) (nowMs : Int) (g : String)
    (row : Row) :
    lookupKey g (zeroBlankRow profiles nowMs row) =
      (lookupKey g row).map
        (fun v => if isEmptyVal v then zeroBlankDefault profiles nowMs g else v) := by
  induction row with
  | nil => rfl
  | cons kv rest ih =>
    unfold zeroBlankRow at ih ⊢
    simp only [List.map_cons]
    by_cases he : isEmptyVal kv.2 = true
    · rw [if_pos he]
      by_cases hk : kv.1 = g
      · subst hk
        simp only [lookupKey, eq_self_iff_true, if_true, Option.map_some', if_pos he]
      · simp only [lookupKey, if_neg hk, ih]
    · rw [if_neg he]
      by_cases hk : kv.1 = g
      · subst hk
        simp only [lookupKey, eq_self_iff_true, if_true, Option.map_some', if_neg he]
      · simp only [lookupKey, if_neg hk, ih]

theorem zeroBlankStep_gender (profiles : List ColumnProfile) (nowMs : Int) (g : String)
    (rows : List Row) (hinv : GenderInv g rows) :
    GenderInv g (zeroBlankStep profiles nowMs rows).1 := by
  intro row hrow
  simp only [zeroBlankStep, List.mem_map] at hrow
  obtain ⟨r, hr, rfl⟩ := hrow
  obtain ⟨v, hv, hok⟩ := hinv r hr
  refine ⟨v, ?_, hok⟩
  rw [lookupKey_zeroBlankRow, hv]
  simp only [Option.map_some']
  rw [if_neg (by simp [genderOk_not_blank hok])]

theorem pipelineProfiles_catInfo (data : List Row) (cfg : CleaningConfig)
    (pf : ColumnProfile) (hmem : pf ∈ pipelineProfiles data cfg)
    (hdt : pf.dataType = .categorical ∨ pf.dataType = .text ∨ pf.dataType = .boolean) :
    pf.categoricalInfo.isSome = true := by
  unfold pipelineProfiles at hmem
  simp only [List.mem_map] at hmem
  obtain ⟨c, _, rfl⟩ := hmem
  unfold profileColumn at hdt ⊢
  dsimp only at hdt ⊢
  rw [if_pos hdt]
  rfl

/-- C1, amended: with `normalizeCategorical` on, a profiled
categorical/text/boolean column whose name contains a protected pattern holds,
in every returned row, a present value that is either the literal `"Unknown"`
or a value whose trimmed string form is the canonical `"Male"`/`"Female"` —
provided no other column's outlier-flag or derived-date sibling name collides
with the protected column.  On the specification's concrete instance
(`['M','female','xyz','']` under the default config) the output column is
exactly `['Male','Female','Unknown','Unknown']`. -/
theorem gender_integrity_amended :
    (∀ (data : List Row) (cfg : CleaningConfig) (nowMs : Int) (pf : ColumnProfile),
      cfg.normalizeCategorical = true →
      data ≠ [] →
      pf ∈ pipelineProfiles data cfg →
      (pf.dataType = .categorical ∨ pf.dataType = .text ∨ pf.dataType = .boolean) →
      (strContains (jsToLower pf.name) "gender" = true ∨
        strContains (jsToLower pf.name) "sex" = true) →
      ((pipelineProfiles data cfg).map (·.name)).Nodup →
      (∀ q ∈ pipelineProfiles data cfg, q.name ++ "_outlier" ≠ pf.name) →
      (∀ q ∈ pipelineProfiles data cfg, q.dataType = .date →
        q.name ++ "_year" ≠ pf.name ∧ q.name ++ "_quarter" ≠ pf.name ∧
        q.name ++ "_month" ≠ pf.name ∧ q.name ++ "_month_name" ≠ pf.name ∧
        q.name ++ "_day_of_week" ≠ pf.name) →
      GenderInv pf.name (cleanDataAdvanced data cfg nowMs).data) ∧
    (cleanDataAdvanced genderExampleRows DEFAULT_CLEANING_CONFIG 0).data.map
        (lookupKey "gender") =
      [some (.str "Male"), some (.str "Female"), some (.str "Unknown"),
        some (.str "Unknown")] := by
  constructor
  · intro data cfg nowMs pf hnorm hne hmem hdt hgname hnodup hout hdate
    have hci : pf.categoricalInfo.isSome = true := pipelineProfiles_catInfo data cfg pf hmem hdt
    have hg' : protectedColumnPatterns.any
        (fun pat => strContains (jsToLower pf.name) pat) = true := by
      simp only [protectedColumnPatterns, List.any_cons, List.any_nil, Bool.or_false,
        Bool.or_eq_true]
      tauto
    have hinj : ∀ q ∈ pipelineProfiles data cfg, q.name = pf.name → q = pf :=
      fun q hq h => List.inj_on_of_nodup_map hnodup hq hmem h
    have hnum_ne : ∀ q ∈ pipelineProfiles data cfg,
        q.dataType = .numeric → q.name ≠ pf.name := by
      intro q hq hqnum heq
      have := hinj q hq heq
      subst this
      rcases hdt with h | h | h <;> rw [hqnum] at h <;> exact DataType.noConfusion h
    have hq9 : ∀ q ∈ pipelineProfiles data cfg,
        q.name = pf.name → ¬ q.dataType = .numeric :=
      fun q hq heq hn => hnum_ne q hq hn heq
    have hdata : (cleanDataAdvanced data cfg nowMs).data = pipelineRows data cfg nowMs := by
      cases data with
      | nil => exact absurd rfl hne
      | cons r rest => rfl
    rw [hdata]
    unfold pipelineRows
    dsimp only
    have step7 : ∀ X : List Row, GenderInv pf.name
        (if cfg.normalizeCategorical then
          (normalizeCategoricalStep (pipelineProfiles data cfg) X).1 else X) := by
      intro X
      rw [if_pos hnorm]
      exact normalizeCategoricalStep_gender _ pf X hmem hnodup hdt hci hg'
    have step8 : ∀ X : List Row, GenderInv pf.name X → GenderInv pf.name
        (if cfg.outlierDetection ≠ .none ∧ cfg.outlierHandling ≠ .none then
          (handleOutliersStep (pipelineProfiles data cfg) cfg X).1 else X) := by
      intro X hX
      split
      · exact handleOutliersStep_gender cfg pf.name _ _
          (fun q hq => ⟨hnum_ne q hq, hout q hq⟩) hX
      · exact hX
    have step9 : ∀ X : List Row, GenderInv pf.name X →
        GenderInv pf.name (handleMissingFill (pipelineProfiles data cfg) cfg X).1 :=
      fun X hX => handleMissingFill_gender cfg pf.name _ _ hq9 hX
    have step9b : ∀ X : List Row, GenderInv pf.name X →
        GenderInv pf.name (removeMissingRows cfg X).1 :=
      fun X hX => removeMissingRows_gender cfg pf.name X hX
    have step10 : ∀ X : List Row, GenderInv pf.name X → GenderInv pf.name
        (if cfg.createDateParts then
          (createDatePartsStep (pipelineProfiles data cfg) nowMs X).1 else X) := by
      intro X hX
      split
      · exact createDatePartsStep_gender nowMs pf.name _ _
          (fun q hq => hdate q (List.mem_of_mem_filter hq)
            (by simpa using (List.mem_filter.mp hq).2)) hX
      · exact hX
    have step11 : ∀ X : List Row, GenderInv pf.name X → GenderInv pf.name
        (if cfg.validateRanges then
          (validateRangesStep (pipelineProfiles data cfg) X).1 else X) := by
      intro X hX
      split
      · exact validateRangesStep_gender pf.name _ _ (fun q hq => hnum_ne q hq) hX
      · exact hX
    have step12 : ∀ X : List Row, GenderInv pf.name X → GenderInv pf.name
        (if cfg.enforceZeroBlank then
          (zeroBlankStep (pipelineProfiles data cfg) nowMs X).1 else X) := by
      intro X hX
      split
      · exact zeroBlankStep_gender _ nowMs pf.name X hX
      · exact hX
    exact step12 _ (step11 _ (step10 _ (step9b _ (step9 _ (step8 _ (step7 _))))))
  · with_unfolding_all decide

/-- C1 counterexample: two runs refuting the unconditional allow-list claim.
(a) `sex_code_outlier` is an existing categorical column whose name contains
`sex`; outlier flagging of the numeric sibling `sex_code` overwrites it with
booleans.  (b) With whitespace trimming off, `" Male "` trims to its own
canonical form, so the integrity rule keeps the untrimmed value verbatim. -/
theorem gender_integrity_counterexample :
    (c1FlagCfg.normalizeCategorical = true ∧
      ((pipelineProfiles c1FlagRows c1FlagCfg).find?
        (fun p => p.name = "sex_code_outlier")).map (fun p => p.dataType) =
        some .categorical ∧
      strContains (jsToLower "sex_code_outlier") "sex" = true ∧
      (cleanDataAdvanced c1FlagRows c1FlagCfg 0).data.map (lookupKey "sex_code_outlier") =
        [some (.bool false), some (.bool false), some (.bool false), some (.bool false),
          some (.bool true)] ∧
      JsValue.bool true ∉ genderAllowList) ∧
    (c1TrimCfg.normalizeCategorical = true ∧
      ((pipelineProfiles c1TrimRows c1TrimCfg).find?
        (fun p => p.name = "gender")).map (fun p => p.dataType) = some .categorical ∧
      (cleanDataAdvanced c1TrimRows c1TrimCfg 0).data.map (lookupKey "gender") =
        [some (.str " Male "), some (.str "Unknown"), some (.str "Unknown")] ∧
      JsValue.str " Male " ∉ genderAllowList) := by
  exact ⟨⟨by decide, by with_unfolding_all decide, by decide,
    by with_unfolding_all decide, by decide⟩,
    ⟨by decide, by with_unfolding_all decide, by with_unfolding_all decide, by decide⟩⟩

/-- C2 witness: the invariant instantiated on a concrete two-row data set with
a null numeric cell and an empty categorical cell. -/
theorem zero_blank_invariant_witness :
    c2Cfg.enforceZeroBlank = true ∧ c2Rows ≠ [] ∧
      ∀ row ∈ (cleanDataAdvanced c2Rows c2Cfg 1700000000000).data,
        ∀ kv ∈ row, isEmptyVal kv.2 = false :=
  ⟨by decide, by decide, zero_blank_invariant c2Rows c2Cfg 1700000000000 (by decide) (by decide)⟩

end DataTidy
